import Mathlib

/-
Verification of the Grounding & Deduplication Engine
(`utils/hallucination_checker.py`, `utils/duplicate_detector.py`,
`utils/result_analyzer.py`).

Modelling conventions:
* Python strings are modelled by `String` (in this toolchain a `String` carries
  a `List Char`); the character-class predicates (`\w`, `\s`, `str.isalnum`,
  `str.lower`) are modelled on their ASCII behaviour, which is what the
  repository's inputs exercise.
* Python floats are modelled by `ℚ` with exact arithmetic; `round(x, 3)` is
  modelled as exact round-half-to-even at three decimals (`round3`).
* External services (the sentence-embedding model and the judge LLM) are
  modelled as oracle parameters: an `Option (String → ℚ)` giving, per answer
  sentence, the maximum cosine similarity over document chunks (`none` models
  an unavailable embedding provider), and an `ℕ → Option Verdict` giving the
  outcome of each transport attempt of the judge call (`none` models the
  attempt raising).
-/

set_option maxHeartbeats 2000000
set_option maxRecDepth 100000
set_option linter.unusedVariables false

namespace QaEngine

/-! ### Character-level utilities (ASCII model of the Python predicates) -/

/-- Python `\s` for the ASCII range: space, tab, newline, carriage return,
vertical tab, form feed. -/
def isPySpace (c : Char) : Bool :=
  c = ' ' || c = '\t' || c = '\n' || c = '\r' || c = '\x0b' || c = '\x0c'

/-- Python regex `\w` (a word character) for the ASCII range. -/
def isWordChar (c : Char) : Bool :=
  (('a' ≤ c && c ≤ 'z') || ('A' ≤ c && c ≤ 'Z') || c.isDigit || c = '_')

/-- Lowercasing of a character list, modelling Python `str.lower()` on ASCII. -/
def lowerChars (cs : List Char) : List Char := cs.map Char.toLower

/-- Python `str.strip()`: drop whitespace from both ends. -/
def trimChars (cs : List Char) : List Char :=
  ((cs.dropWhile isPySpace).reverse.dropWhile isPySpace).reverse

/-- Leftmost non-overlapping replacement of every occurrence of `pat` by `rep`,
modelling Python `str.replace` (the replaced text is not rescanned). -/
def replaceSub (pat rep : List Char) : List Char → List Char
  | [] => []
  | c :: rest =>
    if h : pat ≠ [] ∧ pat.isPrefixOf (c :: rest) then
      rep ++ replaceSub pat rep ((c :: rest).drop pat.length)
    else
      c :: replaceSub pat rep rest
termination_by cs => cs.length
decreasing_by
  · have hp : 0 < pat.length := List.length_pos.mpr h.1
    simp only [List.length_drop, List.length_cons]
    omega
  · simp only [List.length_cons]
    omega

/-- Substring containment, modelling Python `needle in haystack`
(the empty needle is contained in everything). -/
def containsSub (needle : List Char) : List Char → Bool
  | [] => needle.isEmpty
  | c :: rest => needle.isPrefixOf (c :: rest) || containsSub needle rest

/-- Does some string of `needles` occur as a substring of `hay`? -/
def containsAny (hay : List Char) (needles : List String) : Bool :=
  needles.any (fun n => containsSub n.data hay)

/-! ### Exact model of Python `round(x, 3)` on rationals -/

/-- Round a rational to the nearest integer, ties to even
(the rounding mode of Python `round`). -/
def roundHalfEven (x : ℚ) : ℤ :=
  if x - ⌊x⌋ < 1 / 2 then ⌊x⌋
  else if 1 / 2 < x - ⌊x⌋ then ⌊x⌋ + 1
  else if ⌊x⌋ % 2 = 0 then ⌊x⌋ else ⌊x⌋ + 1

/-- Python `round(x, 3)` on the exact rational value. -/
def round3 (q : ℚ) : ℚ := (roundHalfEven (q * 1000) : ℚ) / 1000

/-! ### Sentence segmentation (`_split_into_sentences`)

The splitter protects abbreviations, numbered-list markers, decimal points and
ellipses behind placeholder tokens, splits on sentence-terminal punctuation
followed by whitespace and on newlines, restores the placeholders, and keeps
the trimmed fragments longer than two characters. -/

/-- The alternatives of the `_ABBREVS` regex, in the order the alternation
lists them (regex alternation tries them left to right). -/
def abbrevList : List String :=
  ["Dr", "Mr", "Mrs", "Ms", "Prof", "Sr", "Jr", "St", "vs", "etc", "inc",
   "ltd", "corp", "dept", "approx", "est", "govt", "intl", "natl", "assn",
   "assoc", "vol", "no", "fig", "ref", "pp", "ed", "rev", "gen", "sgt",
   "cpl", "pvt", "lt", "col", "capt", "maj", "brig", "adm", "cmdr"]

theorem length_dropWhile_le (p : Char → Bool) : ∀ l : List Char,
    (l.dropWhile p).length ≤ l.length := by
  intro l
  induction l with
  | nil => simp
  | cons c rest ih =>
    by_cases hc : p c
    · rw [List.dropWhile_cons_of_pos hc]
      exact Nat.le_succ_of_le ih
    · rw [List.dropWhile_cons_of_neg hc]

/-- Case-insensitive prefix stripping: if `cs` starts with `ps` up to
lowercasing, return the rest. -/
def stripCI : List Char → List Char → Option (List Char)
  | [], cs => some cs
  | _ :: _, [] => none
  | p :: ps, c :: cs => if c.toLower = p.toLower then stripCI ps cs else none

theorem stripCI_length : ∀ (ps cs r : List Char), stripCI ps cs = some r →
    r.length ≤ cs.length := by
  intro ps
  induction ps with
  | nil =>
    intro cs r h
    simp only [stripCI, Option.some.injEq] at h
    subst h
    exact le_rfl
  | cons p ps ih =>
    intro cs r h
    cases cs with
    | nil => simp [stripCI] at h
    | cons c cs =>
      simp only [stripCI] at h
      split at h
      · have := ih cs r h
        simp only [List.length_cons]
        omega
      · exact absurd h (by simp)

/-- Try to match one abbreviation alternative followed by a literal dot and a
single whitespace character (the regex `ABBREV\.\s`, case-insensitive);
returns the rest of the input after the whitespace. -/
def matchOneAbbrev (a : String) (cs : List Char) : Option (List Char) :=
  match stripCI a.data cs with
  | some ('.' :: w :: rest) => if isPySpace w then some rest else none
  | _ => none

theorem matchOneAbbrev_length {a : String} {cs rest : List Char}
    (h : matchOneAbbrev a cs = some rest) : rest.length + 2 ≤ cs.length := by
  unfold matchOneAbbrev at h
  split at h
  · rename_i w r hr
    split at h
    · cases h
      have := stripCI_length a.data cs _ hr
      simp only [List.length_cons] at this
      omega
    · cases h
  · cases h

/-- First abbreviation alternative (in the regex order) that matches at this
position; returns the length of the matched alternative and the rest of the
input after the consumed `.` and whitespace. -/
def findAbbrev : List String → List Char → Option (ℕ × List Char)
  | [], _ => none
  | a :: as, cs =>
    match matchOneAbbrev a cs with
    | some rest => some (a.data.length, rest)
    | none => findAbbrev as cs

theorem findAbbrev_length : ∀ (as : List String) (cs : List Char) (n : ℕ)
    (rest : List Char), findAbbrev as cs = some (n, rest) →
    rest.length < cs.length := by
  intro as
  induction as with
  | nil => intro cs n rest h; simp [findAbbrev] at h
  | cons a as ih =>
    intro cs n rest h
    simp only [findAbbrev] at h
    split at h
    · rename_i r hr
      cases h
      have := matchOneAbbrev_length hr
      omega
    · exact ih cs n rest h

/-- The abbreviation-protection pass: scan left to right; at every position
whose preceding character is not a word character (the `\b`), try the
alternation followed by `.` and one whitespace character, and replace a match
by the matched text, `<DOT>` and a space.  The boolean argument records
whether the previous character was a word character. -/
def subAbbrev : Bool → List Char → List Char
  | _, [] => []
  | prevW, c :: rest =>
    if prevW then c :: subAbbrev (isWordChar c) rest
    else
      match h : findAbbrev abbrevList (c :: rest) with
      | some (n, rest2) => (c :: rest).take n ++ "<DOT> ".data ++ subAbbrev false rest2
      | none => c :: subAbbrev (isWordChar c) rest
termination_by _ cs => cs.length
decreasing_by
  · simp only [List.length_cons]
    omega
  · have := findAbbrev_length _ _ _ _ h
    omega
  · simp only [List.length_cons]
    omega

/-- Try the numbered-list pattern `\s*(\d{1,3})\.\s` (everything after the
`^`-or-newline anchor): greedy whitespace, one to three digits, a dot, one
whitespace character.  Returns the digit group and the rest of the input. -/
def numListMatch (cs : List Char) : Option (List Char × List Char) :=
  let r1 := cs.dropWhile isPySpace
  let ds := r1.takeWhile Char.isDigit
  let r2 := r1.dropWhile Char.isDigit
  if 1 ≤ ds.length ∧ ds.length ≤ 3 then
    match r2 with
    | '.' :: w :: rest => if isPySpace w then some (ds, rest) else none
    | _ => none
  else none

theorem numListMatch_length {cs ds rest : List Char}
    (h : numListMatch cs = some (ds, rest)) : rest.length < cs.length := by
  simp only [numListMatch] at h
  split at h
  · rename_i hds
    split at h
    · rename_i w r hr
      split at h
      · cases h
        have h1 : (cs.dropWhile isPySpace).length ≤ cs.length :=
          length_dropWhile_le _ _
        have h2 : ((cs.dropWhile isPySpace).takeWhile Char.isDigit).length +
            ((cs.dropWhile isPySpace).dropWhile Char.isDigit).length =
            (cs.dropWhile isPySpace).length := by
          rw [← List.length_append, List.takeWhile_append_dropWhile]
        have h3 : ((cs.dropWhile isPySpace).dropWhile Char.isDigit).length =
            rest.length + 2 := by
          rw [hr]; simp
        omega
      · cases h
    · cases h
  · cases h

/-- Scanning part of the numbered-list pass: replacement can only trigger at a
newline (the `(?:^|\n)` anchor; the `^` case is handled by `subNumList`). -/
def scanNumList : List Char → List Char
  | [] => []
  | c :: rest =>
    if c = '\n' then
      match h : numListMatch rest with
      | some (ds, rest2) => ' ' :: ds ++ "<DOT> ".data ++ scanNumList rest2
      | none => c :: scanNumList rest
    else c :: scanNumList rest
termination_by cs => cs.length
decreasing_by
  · have := numListMatch_length h
    simp only [List.length_cons]
    omega
  · simp only [List.length_cons]
    omega
  · simp only [List.length_cons]
    omega

/-- The numbered-list-protection pass: `(?:^|\n)\s*(\d{1,3})\.\s` replaced by
a space, the digits, `<DOT>` and a space. -/
def subNumList (cs : List Char) : List Char :=
  match numListMatch cs with
  | some (ds, rest2) => ' ' :: ds ++ "<DOT> ".data ++ scanNumList rest2
  | none => scanNumList cs

/-- The decimal-protection pass: `(\d)\.(\d)` replaced by `\1<DOT>\2`,
leftmost non-overlapping. -/
def subDecimal : List Char → List Char
  | c :: c2 :: c3 :: rest2 =>
    if c.isDigit ∧ c2 = '.' ∧ c3.isDigit then
      c :: "<DOT>".data ++ c3 :: subDecimal rest2
    else c :: subDecimal (c2 :: c3 :: rest2)
  | c :: rest => c :: subDecimal rest
  | [] => []
termination_by cs => cs.length
decreasing_by
  · simp only [List.length_cons]
    omega
  · simp only [List.length_cons]
    omega
  · simp only [List.length_cons]
    omega

/-- Drop a leading run of dots. -/
def dropLeadingDots : List Char → List Char
  | [] => []
  | c :: rest => if c = '.' then dropLeadingDots rest else c :: rest

theorem dropLeadingDots_length : ∀ cs : List Char,
    (dropLeadingDots cs).length ≤ cs.length := by
  intro cs
  induction cs with
  | nil => simp [dropLeadingDots]
  | cons c rest ih =>
    simp only [dropLeadingDots]
    split
    · exact Nat.le_succ_of_le ih
    · exact le_rfl

/-- The ellipsis-protection pass: a maximal run of three or more dots becomes
`<ELLIPSIS>`. -/
def subEllipsis : List Char → List Char
  | '.' :: '.' :: '.' :: rest => "<ELLIPSIS>".data ++ subEllipsis (dropLeadingDots rest)
  | c :: rest => c :: subEllipsis rest
  | [] => []
termination_by cs => cs.length
decreasing_by
  · have := dropLeadingDots_length rest
    simp only [List.length_cons]
    omega
  · simp only [List.length_cons]
    omega

/-- Sentence-terminal punctuation. -/
def isTermPunct (c : Char) : Bool := c = '.' || c = '!' || c = '?'

/-- Is the head of the (reversed) current part terminal punctuation? -/
def headIsTerm : List Char → Bool
  | p :: _ => isTermPunct p
  | [] => false

/-- Splitting on `(?<=[.!?])\s+`: a maximal whitespace run whose preceding
character is terminal punctuation separates two parts.  `cur` is the reversed
current part. -/
def splitTermGo (cur : List Char) : List Char → List (List Char)
  | [] => [cur.reverse]
  | c :: rest =>
    if isPySpace c && headIsTerm cur then
      cur.reverse :: splitTermGo [] ((c :: rest).dropWhile isPySpace)
    else splitTermGo (c :: cur) rest
termination_by cs => cs.length
decreasing_by
  · rename_i hcond
    have hsp : isPySpace c = true := (Bool.and_eq_true _ _ |>.mp hcond).1
    have hdw : (c :: rest).dropWhile isPySpace = rest.dropWhile isPySpace :=
      List.dropWhile_cons_of_pos hsp
    have := length_dropWhile_le isPySpace rest
    rw [hdw]
    simp only [List.length_cons]
    omega
  · simp only [List.length_cons]
    omega

def splitTerm (cs : List Char) : List (List Char) := splitTermGo [] cs

/-- `_split_into_sentences`. -/
def split_into_sentences (text : String) : List String :=
  let cs := text.data
  if trimChars cs = [] then []
  else
    let p1 := subAbbrev false cs
    let p2 := subNumList p1
    let p3 := subDecimal p2
    let p4 := subEllipsis p3
    let parts := splitTerm p4
    let expanded := parts.flatMap (fun p => p.splitOn '\n')
    let restored := expanded.map
      (fun s => trimChars (replaceSub "<ELLIPSIS>".data "...".data
        (replaceSub "<DOT>".data ".".data s)))
    (restored.filter (fun s => 2 < s.length)).map (fun l => String.mk l)

/-! ### Key-phrase extraction (`_extract_key_phrases`) -/

/-- Maximal runs of characters satisfying `p` (used for `re.findall` of
`\b\w+\b` and for Python `str.split()`). -/
def tokenRuns (p : Char → Bool) : List Char → List (List Char)
  | [] => []
  | c :: rest =>
    if p c then
      (c :: rest).takeWhile p :: tokenRuns p ((c :: rest).dropWhile p)
    else tokenRuns p rest
termination_by cs => cs.length
decreasing_by
  · rename_i hw
    have hdw : (c :: rest).dropWhile p = rest.dropWhile p :=
      List.dropWhile_cons_of_pos hw
    have := length_dropWhile_le p rest
    rw [hdw]
    simp only [List.length_cons]
    omega
  · simp only [List.length_cons]
    omega

/-- `re.findall(r"\b\w+\b", text)`: the maximal word-character runs. -/
def wordRuns (cs : List Char) : List (List Char) := tokenRuns isWordChar cs

/-- Python `str.split()`: the maximal non-whitespace runs. -/
def pySplit (cs : List Char) : List (List Char) :=
  tokenRuns (fun c => !isPySpace c) cs

/-- The fixed stopword set of `_extract_key_phrases`. -/
def stop_words : List String :=
  ["the", "a", "an", "and", "or", "but", "in", "on", "at", "to", "for", "of",
   "with", "by", "from", "as", "is", "was", "are", "were", "be", "been",
   "being", "have", "has", "had", "do", "does", "did", "will", "would",
   "could", "should", "may", "might", "must", "can", "this", "that", "these",
   "those", "it", "its", "they", "them", "their"]

def isStopWord (w : List Char) : Bool := stop_words.any (fun t => t.data = w)

/-- The loop body of `_extract_key_phrases`: at each index, a 2-word window
(then, when possible, a 3-word window) of non-stopwords meeting the minimum
phrase length. -/
def phrasesFrom (minLength : ℕ) : List (List Char) → List String
  | w1 :: w2 :: rest =>
    let bi :=
      if !isStopWord w1 && !isStopWord w2 &&
          decide (minLength ≤ w1.length + w2.length + 1) then
        [String.mk (w1 ++ ' ' :: w2)]
      else []
    let tri :=
      match rest with
      | w3 :: _ =>
        if !isStopWord w1 && !isStopWord w2 && !isStopWord w3 &&
            decide (minLength ≤ w1.length + w2.length + w3.length + 2) then
          [String.mk (w1 ++ ' ' :: w2 ++ ' ' :: w3)]
        else []
      | [] => []
    bi ++ tri ++ phrasesFrom minLength (w2 :: rest)
  | _ => []

/-- `_extract_key_phrases(sentence, min_length=4)`. -/
def extract_key_phrases (sentence : String) (minLength : ℕ := 4) : List String :=
  phrasesFrom minLength (wordRuns (lowerChars sentence.data))

/-! ### Generic-statement detection (`_is_generic_statement`) -/

/-- The anchored leading-phrase alternatives of `_is_generic_statement`,
with every regex alternation expanded (all patterns are plain prefixes except
`^the document\b`, handled separately). -/
def genericPrefixList : List String :=
  ["according to the document", "according to the text",
   "according to the article", "according to the report",
   "as stated in the document", "as stated in the text",
   "as stated in the article",
   "as mentioned in the document", "as mentioned in the text",
   "as mentioned in the article",
   "as described in the document", "as described in the text",
   "as described in the article",
   "as noted in the document", "as noted in the text",
   "as noted in the article",
   "as indicated in the document", "as indicated in the text",
   "as indicated in the article",
   "the document states", "the document mentions", "the document describes",
   "the document discusses", "the document says", "the document indicates",
   "the document notes",
   "based on the document", "based on the text", "based on the article",
   "based on the information provided",
   "this is a", "this refers to", "this means", "this suggests that",
   "this indicates",
   "it refers to", "it means", "it should be noted", "it is important",
   "it is worth noting", "it is clear", "it is evident"]

/-- `_is_generic_statement(sentence)`: `re.match` of the fixed pattern list
against the lowercased, stripped sentence. -/
def is_generic_statement (sentence : String) : Bool :=
  let t := trimChars (lowerChars sentence.data)
  ("the document".data.isPrefixOf t &&
    (match t.drop "the document".data.length with
     | [] => true
     | c :: _ => !isWordChar c)) ||
  genericPrefixList.any (fun p => p.data.isPrefixOf t)

/-! ### The grounding result record -/

/-- A parsed judge verdict (the dictionary produced by `_parse_llm_verdict`
and by the failure branches of `_call_llm_judge`). -/
structure Verdict where
  verdict : String
  confidence : ℚ
  reason : String
deriving DecidableEq, Repr

/-- The dictionary returned by the checkers.  The `total_sentences`,
`grounded_count` and `ungrounded_count` keys are absent from two early-return
dictionaries in the source; they are modelled as `0` there (matching the
empty sentence lists of those results).  `llm_verdict` models the key the
judge-based checkers add (`none` when the key is absent); the purely
diagnostic `note` and `semantic_ungrounded_overridden` keys are not
modelled. -/
structure GroundingResult where
  is_grounded : Bool
  confidence : ℚ
  issues : List String
  grounded_sentences : List String
  ungrounded_sentences : List String
  method : String
  total_sentences : ℕ
  grounded_count : ℕ
  ungrounded_count : ℕ
  llm_verdict : Option Verdict := none
deriving DecidableEq, Repr

/-! ### The keyword checker (`_check_keyword_based`) -/

/-- The uncertainty admissions that grant the `+0.2` confidence boost when
found anywhere in the lowercased answer. -/
def uncertainty_admissions : List String :=
  ["i don\x27t know", "i cannot", "i\x27m not sure", "i cannot determine",
   "cannot be determined", "not enough information"]

/-- The insufficient-information phrases that auto-ground a sentence. -/
def insufficiency_phrases : List String :=
  ["not in the document", "not found in the document",
   "not mentioned in the document", "not stated in the document",
   "not provided in the document", "not explicitly stated",
   "not explicitly mentioned"]

/-- The issue text recorded for an ungrounded sentence. -/
def keywordIssue (sentence : String) : String :=
  "Potential hallucination: \x27" ++ String.mk (sentence.data.take 100) ++
    "...\x27 - key phrases not found in document"

/-- The per-sentence classification loop of `_check_keyword_based`:
returns the grounded sentences, the ungrounded sentences and the issues, in
source order. -/
def keywordClassify (docLower : List Char) : List String →
    List String × List String × List String
  | [] => ([], [], [])
  | s :: rest =>
    let (g, u, iss) := keywordClassify docLower rest
    if trimChars s.data = [] then (g, u, iss)
    else if containsAny (lowerChars s.data) insufficiency_phrases then
      (s :: g, u, iss)
    else
      let kps := extract_key_phrases s 4
      let found := kps.countP
        (fun p => decide (3 < p.data.length) && containsSub (lowerChars p.data) docLower)
      if 0 < found ∨ kps = [] then (s :: g, u, iss)
      else if is_generic_statement s then (s :: g, u, iss)
      else (g, s :: u, keywordIssue s :: iss)

/-- The confidence ratio
`len(grounded) / total_sentences if total_sentences else 0.0`. -/
def ratioConf (g u : ℕ) : ℚ :=
  if g + u = 0 then 0 else (g : ℚ) / ((g + u : ℕ) : ℚ)

/-- The uncertainty-admission boost `min(confidence + 0.2, 1.0)`. -/
def boostConf (adm : Bool) (c : ℚ) : ℚ :=
  if adm then min (c + 2/10) 1 else c

/-- `_check_keyword_based(answer, document_content, question)`. -/
def check_keyword_based (answer document_content : String)
    (question : Option String) : GroundingResult :=
  let answer_lower := lowerChars answer.data
  let doc_lower := lowerChars document_content.data
  let parts := keywordClassify doc_lower (split_into_sentences answer)
  let g := parts.1
  let u := parts.2.1
  let conf1 : ℚ :=
    boostConf (containsAny answer_lower uncertainty_admissions)
      (ratioConf g.length u.length)
  { is_grounded := decide (7/10 ≤ conf1) && (u.length == 0)
    confidence := round3 conf1
    issues := parts.2.2
    grounded_sentences := g
    ungrounded_sentences := u
    method := "keyword"
    total_sentences := g.length + u.length
    grounded_count := g.length
    ungrounded_count := u.length }

/-! ### The semantic checker (`_check_semantic_based`)

The embedding model is abstracted by an oracle `sim : Option (String → ℚ)`:
`some f` models a loaded model where `f s` is the maximum cosine similarity
of answer sentence `s` over all document chunks (`float(np.max(similarities))`
in the source), and `none` models `sentence_transformers` being missing or
the model failing to load, in which case the source falls back to the keyword
checker and retags the result (it also records a diagnostic `note` key, not
modelled here). -/

/-- The sliding-window document chunks the answer sentences are compared
against: every individual document sentence, then every run of 2 and of 3
consecutive document sentences.  (This list is consumed only by the embedding
model, i.e. by the `sim` oracle.) -/
def docChunks (doc_sentences : List String) : List String :=
  doc_sentences ++
    (List.range (doc_sentences.length + 1 - 2)).map
      (fun j => String.intercalate " " ((doc_sentences.drop j).take 2)) ++
    (List.range (doc_sentences.length + 1 - 3)).map
      (fun j => String.intercalate " " ((doc_sentences.drop j).take 3))

/-- Two-decimal rendering of a rational, modelling `f"{x:.2f}"` on the exact
value. -/
def format2dp (q : ℚ) : String :=
  let n : ℤ := roundHalfEven (q * 100)
  let a := n.natAbs
  let fp := a % 100
  (if n < 0 then "-" else "") ++ toString (a / 100) ++ "." ++
    (if fp < 10 then "0" ++ toString fp else toString fp)

/-- The issue text recorded for a low-similarity sentence. -/
def semanticIssue (maxSim : ℚ) (s : String) : String :=
  "Low similarity (" ++ format2dp maxSim ++ "): \x27" ++
    String.mk (s.data.take 100) ++ "...\x27"

/-- The per-sentence classification loop of `_check_semantic_based`. -/
def semanticClassify (simF : String → ℚ) : List String →
    List String × List String × List String
  | [] => ([], [], [])
  | s :: rest =>
    let (g, u, iss) := semanticClassify simF rest
    if trimChars s.data = [] then (g, u, iss)
    else if 1/2 ≤ simF s then (s :: g, u, iss)
    else if is_generic_statement s then (s :: g, u, iss)
    else (g, s :: u, semanticIssue (simF s) s :: iss)

/-- `_check_semantic_based(answer, document_content, question)`. -/
def check_semantic_based (sim : Option (String → ℚ))
    (answer document_content : String) (question : Option String) :
    GroundingResult :=
  match sim with
  | none =>
    let r := check_keyword_based answer document_content question
    { r with method := "keyword (semantic unavailable)" }
  | some simF =>
    let answer_sentences := split_into_sentences answer
    if answer_sentences = [] then
      { is_grounded := false, confidence := 0, issues := ["Answer is empty"],
        grounded_sentences := [], ungrounded_sentences := [],
        method := "semantic", total_sentences := 0, grounded_count := 0,
        ungrounded_count := 0 }
    else
      let parts := semanticClassify simF answer_sentences
      let g := parts.1
      let u := parts.2.1
      let conf : ℚ := ratioConf g.length u.length
      { is_grounded := decide (7/10 ≤ conf) && (u.length == 0)
        confidence := round3 conf
        issues := parts.2.2
        grounded_sentences := g
        ungrounded_sentences := u
        method := "semantic"
        total_sentences := g.length + u.length
        grounded_count := g.length
        ungrounded_count := u.length }

/-! ### The judge call (`_call_llm_judge`)

The transport is abstracted by an oracle `oracle : ℕ → Option Verdict`:
`oracle k = some v` models attempt `k` of the
`client.chat.completions.create` call succeeding, with `v` the verdict
`_parse_llm_verdict` extracts from the reply (the parser tolerates malformed
replies and never raises); `oracle k = none` models attempt `k` raising.
The second component of the result collects the `time.sleep` durations, in
order.  The failure verdict's reason elides the formatted exception text.
The `RuntimeError`s raised before the loop when `openai` is not installed or
`set_llm_config` was never called model environment misconfiguration and are
outside this embedding. -/

def call_llm_judge_go (oracle : ℕ → Option Verdict) (maxRetries : ℕ)
    (retryDelay : ℚ) : ℕ → ℕ → List ℚ → Verdict × List ℚ
  | _, 0, delays => (⟨"UNKNOWN", 1/2, "LLM call exhausted retries"⟩, delays)
  | attempt, fuel + 1, delays =>
    match oracle attempt with
    | some v => (v, delays)
    | none =>
      if attempt < maxRetries - 1 then
        call_llm_judge_go oracle maxRetries retryDelay (attempt + 1) fuel
          (delays ++ [retryDelay * ((attempt : ℚ) + 1)])
      else (⟨"UNKNOWN", 1/2, "LLM call failed"⟩, delays)

/-- `_call_llm_judge(answer, document_content, question)`: the retry loop
`for attempt in range(max_retries)`, returning the verdict and the slept
delays. -/
def call_llm_judge (oracle : ℕ → Option Verdict) (maxRetries : ℕ)
    (retryDelay : ℚ) : Verdict × List ℚ :=
  call_llm_judge_go oracle maxRetries retryDelay 0 maxRetries []

/-- `_check_llm_based(answer, document_content, question)`. -/
def check_llm_based (oracle : ℕ → Option Verdict) (maxRetries : ℕ)
    (retryDelay : ℚ) (answer document_content : String)
    (question : Option String) : GroundingResult :=
  if trimChars answer.data = [] then
    { is_grounded := false, confidence := 0, issues := ["Answer is empty"],
      grounded_sentences := [], ungrounded_sentences := [], method := "llm",
      total_sentences := 0, grounded_count := 0, ungrounded_count := 0 }
  else
    let verdict := (call_llm_judge oracle maxRetries retryDelay).1
    let is_supported := verdict.verdict = "SUPPORTED"
    let sentences := split_into_sentences answer
    let g := if is_supported then sentences else []
    let u := if is_supported then [] else sentences
    { is_grounded := decide is_supported && decide (7/10 ≤ verdict.confidence)
      confidence := round3 verdict.confidence
      issues := if is_supported then [] else ["LLM judge: " ++ verdict.reason]
      grounded_sentences := g
      ungrounded_sentences := u
      method := "llm"
      total_sentences := g.length + u.length
      grounded_count := g.length
      ungrounded_count := u.length
      llm_verdict := some verdict }

/-! ### The hybrid checker (`_check_hybrid`)

The `try/except` around the judge call can only fire on the environment
`RuntimeError`s described above (transport failures are absorbed inside
`_call_llm_judge`), so the fallback branch is not modelled. -/

/-- `_check_hybrid(answer, document_content, question)`. -/
def check_hybrid (sim : Option (String → ℚ)) (oracle : ℕ → Option Verdict)
    (maxRetries : ℕ) (retryDelay : ℚ) (answer document_content : String)
    (question : Option String) : GroundingResult :=
  let sr := check_semantic_based sim answer document_content question
  let ungrounded := sr.ungrounded_sentences
  if ungrounded = [] then
    { sr with method := "hybrid (semantic only — all passed)" }
  else
    let v := (call_llm_judge oracle maxRetries retryDelay).1
    if v.verdict = "SUPPORTED" ∧ 7/10 ≤ v.confidence then
      let all_sentences := sr.grounded_sentences ++ ungrounded
      { is_grounded := true
        confidence := round3 v.confidence
        issues := []
        grounded_sentences := all_sentences
        ungrounded_sentences := []
        method := "hybrid (semantic + LLM override)"
        total_sentences := all_sentences.length
        grounded_count := all_sentences.length
        ungrounded_count := 0
        llm_verdict := some v }
    else
      let combined := min sr.confidence v.confidence
      { sr with
        method := "hybrid (semantic + LLM confirmed)"
        confidence := round3 combined
        is_grounded := decide (7/10 ≤ combined) && (ungrounded.length == 0)
        llm_verdict := some v
        issues := sr.issues ++
          (if v.reason = "" then [] else ["LLM confirms: " ++ v.reason]) }

/-- `check_hallucination(answer, document_content, question, method)`:
the method dispatch; an unknown method raises `ValueError`, modelled as the
`Except.error` case. -/
def check_hallucination (sim : Option (String → ℚ))
    (oracle : ℕ → Option Verdict) (maxRetries : ℕ) (retryDelay : ℚ)
    (answer document_content : String) (question : Option String)
    (method : String) : Except String GroundingResult :=
  if method = "keyword" ∨ method = "both" then
    .ok (check_keyword_based answer document_content question)
  else if method = "semantic" then
    .ok (check_semantic_based sim answer document_content question)
  else if method = "llm" then
    .ok (check_llm_based oracle maxRetries retryDelay answer document_content question)
  else if method = "hybrid" then
    .ok (check_hybrid sim oracle maxRetries retryDelay answer document_content question)
  else
    .error ("Unknown method: " ++ method ++
      ". Use \x27keyword\x27, \x27semantic\x27, \x27llm\x27, or \x27hybrid\x27")

/-! ## The duplicate detector (`utils/duplicate_detector.py`) -/

/-- The contraction table of `normalize_text`, in dict insertion order
(`dict` iteration preserves it). -/
def contractionTable : List (String × String) :=
  [("\x27s", " is"), ("\x27re", " are"), ("\x27ve", " have"),
   ("\x27ll", " will"), ("\x27d", " would"), ("\x27m", " am"),
   ("n\x27t", " not"), ("\x27t", " not")]

/-- `normalize_text(text)`: lowercase, expand contractions sequentially,
collapse whitespace, keep only alphanumeric characters and spaces. -/
def normalize_text (text : String) : String :=
  let l0 := lowerChars text.data
  let l1 := contractionTable.foldl
    (fun acc pr => replaceSub pr.1.data pr.2.data acc) l0
  let l2 := List.intercalate [' '] (pySplit l1)
  String.mk (l2.filter (fun c => c.isAlphanum || isPySpace c))

/-- Deduplication preserving first occurrences (Python `set` built from a
list, with membership the only observation). -/
def dedupKeepFirst : List (List Char) → List (List Char)
  | [] => []
  | w :: rest => w :: dedupKeepFirst (rest.filter (fun x => x ≠ w))
termination_by l => l.length
decreasing_by
  have := List.length_filter_le (fun x => x ≠ w) rest
  simp only [List.length_cons]
  omega

/-- The normalized word set of a text (as a duplicate-free list). -/
def wordSetOf (t : String) : List (List Char) :=
  dedupKeepFirst (pySplit (normalize_text t).data)

/-- `calculate_jaccard_similarity(text1, text2)`. -/
def calculate_jaccard_similarity (text1 text2 : String) : ℚ :=
  let w1 := wordSetOf text1
  let w2 := wordSetOf text2
  if w1 = [] ∧ w2 = [] then 1
  else if w1 = [] ∨ w2 = [] then 0
  else
    let inter := (w1.filter (fun x => x ∈ w2)).length
    let uni := (w1 ++ w2.filter (fun x => x ∉ w1)).length
    if 0 < uni then (inter : ℚ) / uni else 0

/-- `calculate_semantic_similarity(text1, text2)`, abstracted by the oracle
`semSim`: on success the source returns `float(max(0.0, cosine))` (a value
`≥ 0`), and returns `-1.0` when `sentence_transformers` is not importable or
the model/encoding raises; an oracle value `< 0` models the sentinel. -/
def calculate_semantic_similarity (semSim : String → String → ℚ)
    (text1 text2 : String) : ℚ :=
  semSim text1 text2

/-- `is_duplicate(question1, question2, similarity_threshold, exact_match,
method)`. -/
def is_duplicate (semSim : String → String → ℚ) (question1 question2 : String)
    (similarity_threshold : ℚ) (exact_match : Bool) (method : String) : Bool :=
  if exact_match && (normalize_text question1 == normalize_text question2) then
    true
  else if method = "semantic" || method = "both" then
    let s := calculate_semantic_similarity semSim question1 question2
    if 0 ≤ s then
      if method = "both" then
        decide (similarity_threshold ≤ s) ||
          decide (similarity_threshold ≤ calculate_jaccard_similarity question1 question2)
      else decide (similarity_threshold ≤ s)
    else if method = "semantic" then
      decide (similarity_threshold ≤ calculate_jaccard_similarity question1 question2)
    else
      decide (similarity_threshold ≤ calculate_jaccard_similarity question1 question2)
  else
    decide (similarity_threshold ≤ calculate_jaccard_similarity question1 question2)

/-! ### Union-find clustering (`detect_duplicate_questions`)

The source's `find` performs path compression; compression only redirects
the pointers of visited nodes to their already-determined root and never
changes which root any node reaches, so the root function is modelled by a
compression-free chase with fuel `p.length` (the unions keep the parent
array a forest, whose paths are shorter than its length). -/

def uf_find (p : List ℕ) : ℕ → ℕ → ℕ
  | 0, x => x
  | fuel + 1, x =>
    let px := p.getD x x
    if px = x then x else uf_find p fuel px

/-- `union(x, y)`: link the root of `y` under the root of `x`. -/
def uf_union (p : List ℕ) (x y : ℕ) : List ℕ :=
  let rx := uf_find p p.length x
  let ry := uf_find p p.length y
  if rx = ry then p else p.set ry rx

/-- The pair loop `for i in range(n): for j in range(i + 1, n)`. -/
def pairsBelow (n : ℕ) : List (ℕ × ℕ) :=
  (List.range n).flatMap
    (fun i => ((List.range n).filter (fun j => i < j)).map (fun j => (i, j)))

/-- The parent array after all unions of duplicate pairs. -/
def dupParent (dup : String → String → Bool) (questions : List String) :
    List ℕ :=
  (pairsBelow questions.length).foldl
    (fun p ij =>
      if dup (questions.getD ij.1 "") (questions.getD ij.2 "") then
        uf_union p ij.1 ij.2
      else p)
    (List.range questions.length)

/-- The root of index `i` in the final parent array. -/
def dupRoot (dup : String → String → Bool) (questions : List String)
    (i : ℕ) : ℕ :=
  uf_find (dupParent dup questions) (dupParent dup questions).length i

/-- One step of `clusters.setdefault(root, []).append(idx)` on an association
list in key insertion order (Python dicts preserve it). -/
def upsertAppend : List (ℕ × List ℕ) → ℕ → ℕ → List (ℕ × List ℕ)
  | [], r, i => [(r, [i])]
  | (k, l) :: rest, r, i =>
    if k = r then (k, l ++ [i]) :: rest else (k, l) :: upsertAppend rest r i

/-- The cluster-building loop `for idx in range(n)`. -/
def buildClusters (root : ℕ → ℕ) (n : ℕ) : List (ℕ × List ℕ) :=
  (List.range n).foldl (fun acc i => upsertAppend acc (root i) i) []

/-- Lookup in the association list (`clusters[root]`; keys are unique). -/
def lookupA : List (ℕ × List ℕ) → ℕ → List ℕ
  | [], _ => []
  | (k, l) :: rest, r => if k = r then l else lookupA rest r

/-- The clusters grouped from an arbitrary root function, each sorted
ascending (`cluster_indices.sort()`). -/
def clustersAux (root : ℕ → ℕ) (n : ℕ) : List (List ℕ) :=
  (buildClusters root n).map (fun kl => kl.2.insertionSort (· ≤ ·))

/-- The clusters of `detect_duplicate_questions`. -/
def clustersOf (dup : String → String → Bool) (questions : List String) :
    List (List ℕ) :=
  clustersAux (dupRoot dup questions) questions.length

/-- `detect_duplicate_questions(questions, similarity_threshold, exact_match,
method)`, returning `(unique_questions, duplicate_indices)`. -/
def detect_duplicate_questions (semSim : String → String → ℚ)
    (questions : List String) (similarity_threshold : ℚ) (exact_match : Bool)
    (method : String) : List String × List ℕ :=
  if questions.length ≤ 1 then (questions, [])
  else
    let cl := clustersOf
      (fun a b => is_duplicate semSim a b similarity_threshold exact_match method)
      questions
    (cl.map (fun c => questions.getD (c.headD 0) ""),
     (cl.flatMap (fun c => c.drop 1)).insertionSort (· ≤ ·))

/-- `filter_duplicates_from_new_questions(existing_questions, new_questions,
similarity_threshold, method)` (the call to `detect_duplicate_questions`
leaves `exact_match` at its default `True`). -/
def filter_duplicates_from_new_questions (semSim : String → String → ℚ)
    (existing_questions new_questions : List String)
    (similarity_threshold : ℚ) (method : String) : List String :=
  if existing_questions = [] then
    (detect_duplicate_questions semSim new_questions similarity_threshold
      true method).1
  else if new_questions = [] then []
  else
    let combined := existing_questions ++ new_questions
    let unique_combined := (detect_duplicate_questions semSim combined
      similarity_threshold true method).1
    let existing_set := existing_questions.map normalize_text
    unique_combined.filter (fun q => normalize_text q ∉ existing_set)

/-! ## The quality evaluator (`utils/result_analyzer.py`) -/

/-- One entry of `qa_pairs`: `pair.get("grading") or {}` with missing keys
gives `none` fields; `pair.get("answer") or ""` makes a missing or falsy
answer the empty string. -/
structure PairInput where
  question : Option String
  answer : String
  confidence : Option ℚ
  is_grounded : Option Bool
deriving DecidableEq, Repr

/-- The merged thresholds configuration (the source merges
`DEFAULT_THRESHOLDS` with the caller's overrides; quantifying over the merged
record covers every override). -/
structure Thresholds where
  min_questions : ℕ
  attention_confidence : ℚ
  review_confidence : ℚ
  low_confidence : ℚ
  short_answer_chars : ℕ
deriving DecidableEq, Repr

def DEFAULT_THRESHOLDS : Thresholds :=
  { min_questions := 3, attention_confidence := 1/2,
    review_confidence := 3/4, low_confidence := 65/100,
    short_answer_chars := 60 }

/-- The `QAQuality` dataclass. -/
structure QAQuality where
  question_index : ℕ
  confidence : Option ℚ
  is_grounded : Option Bool
  answer_length : ℕ
  status : String
  notes : List String
deriving DecidableEq, Repr

/-- The low-confidence note `f"confidence {c:.2f} below {t:.2f}"`. -/
def lowConfNote (c t : ℚ) : String :=
  "confidence " ++ format2dp c ++ " below " ++ format2dp t

/-- `_evaluate_pair(pair, idx, thresholds)`. -/
def evaluate_pair (pair : PairInput) (idx : ℕ) (cfg : Thresholds) :
    QAQuality :=
  let a := trimChars pair.answer.data
  let first :=
    match pair.confidence with
    | none => (["missing confidence"], "warn")
    | some c =>
      if c < cfg.low_confidence then ([lowConfNote c cfg.low_confidence], "warn")
      else ([], "ok")
  let second :=
    if pair.is_grounded = some false then
      (first.1 ++ ["grading flagged as ungrounded"], "fail")
    else first
  let third :=
    if a.length < cfg.short_answer_chars then
      (second.1 ++ ["answer very short"],
        if second.2 = "ok" then "warn" else second.2)
    else second
  { question_index := idx, confidence := pair.confidence,
    is_grounded := pair.is_grounded, answer_length := a.length,
    status := third.2, notes := third.1 }

/-- One entry of the report's `pair_details`. -/
structure PairDetail where
  question : Option String
  status : String
  confidence : Option ℚ
  notes : List String
deriving DecidableEq, Repr

/-- The document record consumed by `evaluate_document_quality`:
`overall_confidence` is `document.get("grading_summary", {}).get
("overall_confidence")`, `nested_id` is `document.get("document", {}).get
("id")` and `flat_id` is `document.get("document_id")`. -/
structure DocumentRecord where
  qa_pairs : List PairInput
  overall_confidence : Option ℚ
  nested_id : Option String
  flat_id : Option String
deriving DecidableEq, Repr

/-- The report produced by `evaluate_document_quality`. -/
structure QualityReport where
  document_id : String
  num_questions : ℕ
  overall_confidence : Option ℚ
  quality_band : String
  warnings : List String
  pair_details : List PairDetail
deriving DecidableEq, Repr

/-- `statistics.mean`. -/
def meanQ (l : List ℚ) : ℚ := l.sum / l.length

/-- Python `a or b or dflt` over strings (`None` and `""` are falsy). -/
def firstTruthyString (opts : List (Option String)) (dflt : String) : String :=
  match (opts.filterMap id).filter (fun s => s ≠ "") with
  | s :: _ => s
  | [] => dflt

/-- The local `per_pair` of `evaluate_document_quality`. -/
def perPairQualities (document : DocumentRecord) (cfg : Thresholds) :
    List QAQuality :=
  document.qa_pairs.mapIdx (fun i p => evaluate_pair p (i + 1) cfg)

/-- The local `confidences`: the available pair confidences. -/
def availableConfidences (document : DocumentRecord) (cfg : Thresholds) :
    List ℚ :=
  (perPairQualities document cfg).filterMap (fun q => q.confidence)

/-- The local `low_conf_pairs`: the pairs whose status is warn or fail. -/
def lowConfPairs (document : DocumentRecord) (cfg : Thresholds) :
    List QAQuality :=
  (perPairQualities document cfg).filter
    (fun q => q.status = "warn" || q.status = "fail")

/-- The local `overall_conf` after both recomputation steps. -/
def docOverallConfidence (document : DocumentRecord) (cfg : Thresholds) :
    Option ℚ :=
  let confidences := availableConfidences document cfg
  let overall1 :=
    if document.overall_confidence = none ∧ confidences ≠ [] then
      some (meanQ confidences)
    else document.overall_confidence
  if lowConfPairs document cfg ≠ [] ∧ confidences ≠ [] then
    some (meanQ confidences)
  else overall1

/-- The local `warnings` as built before the band computation. -/
def docWarningsPre (document : DocumentRecord) (cfg : Thresholds) :
    List String :=
  (if document.qa_pairs.length < cfg.min_questions then
    ["Only " ++ toString document.qa_pairs.length ++
      " question(s); expected ≥ " ++ toString cfg.min_questions]
   else []) ++
  ((lowConfPairs document cfg).filter (fun q => q.notes ≠ [])).map
    (fun q => "Q" ++ toString q.question_index ++ ": " ++
      String.intercalate ", " q.notes)

/-- Is an optional confidence known and below a threshold
(`x is not None and x < t`)? -/
def confBelow (oc : Option ℚ) (t : ℚ) : Bool :=
  match oc with
  | some c => decide (c < t)
  | none => false

/-- The band `elif` chain, together with the final warnings list. -/
def docBandWarnings (document : DocumentRecord) (cfg : Thresholds) :
    String × List String :=
  let warnings1 := docWarningsPre document cfg
  let overall2 := docOverallConfidence document cfg
  if document.qa_pairs = [] then
    ("needs_attention", warnings1 ++ ["No Q&A pairs available"])
  else if confBelow overall2 cfg.attention_confidence then
    ("needs_attention", warnings1)
  else if lowConfPairs document cfg ≠ [] ∧
      confBelow overall2 cfg.review_confidence = true then
    ("needs_attention", warnings1)
  else if warnings1 ≠ [] ∨ confBelow overall2 cfg.review_confidence = true then
    ("review", warnings1)
  else ("excellent", warnings1)

/-- `evaluate_document_quality(document, thresholds=...)`. -/
def evaluate_document_quality (document : DocumentRecord) (cfg : Thresholds) :
    QualityReport :=
  { document_id := firstTruthyString [document.nested_id, document.flat_id] "unknown"
    num_questions := document.qa_pairs.length
    overall_confidence := docOverallConfidence document cfg
    quality_band := (docBandWarnings document cfg).1
    warnings := (docBandWarnings document cfg).2
    pair_details := (document.qa_pairs.zip (perPairQualities document cfg)).map
      (fun pq => { question := pq.1.question, status := pq.2.status,
                   confidence := pq.2.confidence, notes := pq.2.notes }) }

/-- The claim side of C1: the spec's confidence formula, read off the
result's own counts (`grounded_count / total_sentences`, `0.0` with no
sentences, `+0.2` capped at `1.0` on an uncertainty admission). -/
def keywordClaimedConfidence (r : GroundingResult) (answer : String) : ℚ :=
  boostConf (containsAny (lowerChars answer.data) uncertainty_admissions)
    (if r.total_sentences = 0 then 0
     else (r.grounded_count : ℚ) / (r.total_sentences : ℚ))

/-! ## Supporting lemmas -/

theorem roundHalfEven_nonneg {x : ℚ} (hx : 0 ≤ x) : 0 ≤ roundHalfEven x := by
  have h0 : (0 : ℤ) ≤ ⌊x⌋ := Int.floor_nonneg.2 hx
  unfold roundHalfEven
  split_ifs <;> omega

theorem roundHalfEven_le_of_le {x : ℚ} {b : ℤ} (hx : x ≤ b) : roundHalfEven x ≤ b := by
  have hfl : ⌊x⌋ ≤ b := by
    have h2 := Int.floor_le_floor (α := ℚ) (by exact_mod_cast hx : x ≤ (b : ℚ))
    simpa using h2
  have hstep : ¬ x - ⌊x⌋ < 1 / 2 → ⌊x⌋ < b := by
    intro h1
    push_neg at h1
    have hfx := Int.floor_le x
    have hlt : (⌊x⌋ : ℚ) < (b : ℚ) := by linarith
    exact_mod_cast hlt
  unfold roundHalfEven
  split_ifs with h1 h2 h3
  · exact hfl
  · have := hstep h1
    omega
  · exact hfl
  · have := hstep h1
    omega

theorem round3_nonneg {q : ℚ} (h : 0 ≤ q) : 0 ≤ round3 q := by
  unfold round3
  have := roundHalfEven_nonneg (x := q * 1000) (by positivity)
  positivity

theorem round3_le_one {q : ℚ} (h : q ≤ 1) : round3 q ≤ 1 := by
  unfold round3
  have h1 : roundHalfEven (q * 1000) ≤ (1000 : ℤ) :=
    roundHalfEven_le_of_le (by push_cast; linarith)
  rw [div_le_one (by norm_num)]
  exact_mod_cast h1

theorem ratioConf_nonneg (g u : ℕ) : 0 ≤ ratioConf g u := by
  unfold ratioConf
  split
  · norm_num
  · positivity

theorem ratioConf_le_one (g u : ℕ) : ratioConf g u ≤ 1 := by
  unfold ratioConf
  split
  · norm_num
  · rename_i h
    rw [div_le_one (by exact_mod_cast Nat.pos_of_ne_zero h)]
    exact_mod_cast Nat.le_add_right g u

theorem boostConf_nonneg (adm : Bool) {c : ℚ} (hc : 0 ≤ c) :
    0 ≤ boostConf adm c := by
  unfold boostConf
  split
  · exact le_min (by linarith) (by norm_num)
  · exact hc

theorem boostConf_le_one (adm : Bool) {c : ℚ} (hc : c ≤ 1) :
    boostConf adm c ≤ 1 := by
  unfold boostConf
  split
  · exact min_le_right _ _
  · exact hc

theorem round3_half : round3 (1/2) = 1/2 := by
  with_unfolding_all decide

/-! ## Claim theorems -/

/-- C1 (amended): for every answer and document, the keyword result's
confidence equals the spec's formula — `grounded_count / total_sentences`
(`0.0` with no sentences), boosted by `0.2` capped at `1.0` when the answer
contains an uncertainty admission — rounded to three decimal places, and
`is_grounded` holds iff the unrounded value is at least `0.7` and
`ungrounded_count` is `0`; the two-sentence scenario (one grounded sentence,
one fabricated) yields confidence `0.5` and `is_grounded = false`. -/
theorem C1_keyword_confidence (answer document_content : String)
    (question : Option String) :
    ((check_keyword_based answer document_content question).confidence =
      round3 (keywordClaimedConfidence
        (check_keyword_based answer document_content question) answer)) ∧
    ((check_keyword_based answer document_content question).is_grounded = true ↔
      7/10 ≤ keywordClaimedConfidence
        (check_keyword_based answer document_content question) answer ∧
      (check_keyword_based answer document_content question).ungrounded_count = 0) ∧
    (check_keyword_based "Ab cd. Xq zw." "Ab cd ef." none).confidence = 1/2 ∧
    (check_keyword_based "Ab cd. Xq zw." "Ab cd ef." none).is_grounded = false := by
  refine ⟨rfl, ?_, by with_unfolding_all decide, by with_unfolding_all decide⟩
  show (decide _ && (_ == 0)) = true ↔ _
  rw [Bool.and_eq_true, decide_eq_true_eq, beq_iff_eq]
  exact Iff.rfl

/-- C1 fails exactly as stated: on a three-sentence answer with one grounded
sentence and no admission, the returned confidence is the rounded
`0.333`, not the exact `1/3` the claim's formula gives. -/
theorem C1_keyword_confidence_counterexample :
    (check_keyword_based "Ab cd. Xq zw. Jk lm." "Ab cd ef." none).grounded_count = 1 ∧
    (check_keyword_based "Ab cd. Xq zw. Jk lm." "Ab cd ef." none).total_sentences = 3 ∧
    containsAny (lowerChars ("Ab cd. Xq zw. Jk lm." : String).data)
      uncertainty_admissions = false ∧
    (check_keyword_based "Ab cd. Xq zw. Jk lm." "Ab cd ef." none).confidence = 333/1000 ∧
    (check_keyword_based "Ab cd. Xq zw. Jk lm." "Ab cd ef." none).confidence ≠ 1/3 := by
  with_unfolding_all decide

/-- C6: every keyword result and every semantic result (under any
behaviour of the embedding oracle, including the keyword fallback) has
confidence in `[0, 1]` and `grounded_count + ungrounded_count =
total_sentences`. -/
theorem C6_bounds_and_counts (sim : Option (String → ℚ))
    (answer document_content : String) (question : Option String) :
    (0 ≤ (check_keyword_based answer document_content question).confidence ∧
     (check_keyword_based answer document_content question).confidence ≤ 1 ∧
     (check_keyword_based answer document_content question).grounded_count +
       (check_keyword_based answer document_content question).ungrounded_count =
       (check_keyword_based answer document_content question).total_sentences) ∧
    (0 ≤ (check_semantic_based sim answer document_content question).confidence ∧
     (check_semantic_based sim answer document_content question).confidence ≤ 1 ∧
     (check_semantic_based sim answer document_content question).grounded_count +
       (check_semantic_based sim answer document_content question).ungrounded_count =
       (check_semantic_based sim answer document_content question).total_sentences) := by
  have hkw : ∀ a d q, 0 ≤ (check_keyword_based a d q).confidence ∧
      (check_keyword_based a d q).confidence ≤ 1 ∧
      (check_keyword_based a d q).grounded_count +
        (check_keyword_based a d q).ungrounded_count =
        (check_keyword_based a d q).total_sentences := by
    intro a d q
    refine ⟨round3_nonneg (boostConf_nonneg _ (ratioConf_nonneg _ _)),
      round3_le_one (boostConf_le_one _ (ratioConf_le_one _ _)), rfl⟩
  refine ⟨hkw answer document_content question, ?_⟩
  cases sim with
  | none =>
    simpa [check_semantic_based] using hkw answer document_content question
  | some simF =>
    simp only [check_semantic_based]
    split
    · norm_num
    · exact ⟨round3_nonneg (ratioConf_nonneg _ _),
        round3_le_one (ratioConf_le_one _ _), rfl⟩

/-- C10: the judge-delegated (`llm`) method on an answer that is empty or
whitespace-only returns the fixed result — `is_grounded = false`, confidence
`0`, empty sentence lists, the `"Answer is empty"` issue — and the result
does not depend on the judge oracle or retry configuration (the judge is
never consulted). -/
theorem C10_llm_empty_answer (oracle : ℕ → Option Verdict) (maxRetries : ℕ)
    (retryDelay : ℚ) (answer document_content : String)
    (question : Option String) (h : trimChars answer.data = []) :
    (check_llm_based oracle maxRetries retryDelay answer document_content question =
      { is_grounded := false, confidence := 0, issues := ["Answer is empty"],
        grounded_sentences := [], ungrounded_sentences := [], method := "llm",
        total_sentences := 0, grounded_count := 0, ungrounded_count := 0 }) ∧
    (∀ (oracle2 : ℕ → Option Verdict) (mr2 : ℕ) (rd2 : ℚ),
      check_llm_based oracle maxRetries retryDelay answer document_content question =
      check_llm_based oracle2 mr2 rd2 answer document_content question) := by
  constructor
  · simp [check_llm_based, h]
  · intro oracle2 mr2 rd2
    simp [check_llm_based, h]

theorem C10_llm_empty_answer_witness :
    trimChars ("   " : String).data = [] ∧
    check_llm_based (fun _ => none) 3 1 "   " "doc" none =
      { is_grounded := false, confidence := 0, issues := ["Answer is empty"],
        grounded_sentences := [], ungrounded_sentences := [], method := "llm",
        total_sentences := 0, grounded_count := 0, ungrounded_count := 0 } :=
  ⟨by decide,
   (C10_llm_empty_answer (fun _ => none) 3 1 "   " "doc" none (by decide)).1⟩

/-- The failure tail of the retry loop: once every remaining attempt fails,
the verdict is unknown with confidence one half, and the slept delays are
`retryDelay * (attempt + 1)` for every non-final attempt. -/
theorem call_llm_judge_go_all_fail (oracle : ℕ → Option Verdict)
    (maxRetries : ℕ) (retryDelay : ℚ)
    (h : ∀ k, k < maxRetries → oracle k = none) :
    ∀ (fuel attempt : ℕ) (delays : List ℚ), attempt + fuel = maxRetries →
    (call_llm_judge_go oracle maxRetries retryDelay attempt fuel delays).1.verdict = "UNKNOWN" ∧
    (call_llm_judge_go oracle maxRetries retryDelay attempt fuel delays).1.confidence = 1/2 ∧
    (call_llm_judge_go oracle maxRetries retryDelay attempt fuel delays).2 =
      delays ++ (List.range' attempt (fuel - 1)).map
        (fun k : ℕ => retryDelay * ((k : ℚ) + 1)) := by
  intro fuel
  induction fuel with
  | zero =>
    intro attempt delays hsum
    simp [call_llm_judge_go]
  | succ fuel ih =>
    intro attempt delays hsum
    have hor : oracle attempt = none := h attempt (by omega)
    simp only [call_llm_judge_go, hor]
    by_cases hlt : attempt < maxRetries - 1
    · rw [if_pos hlt]
      have hrec := ih (attempt + 1) (delays ++ [retryDelay * ((attempt : ℚ) + 1)])
        (by omega)
      refine ⟨hrec.1, hrec.2.1, ?_⟩
      rw [hrec.2.2]
      have hfuel : 1 ≤ fuel := by omega
      have hr : List.range' attempt (fuel + 1 - 1) =
          attempt :: List.range' (attempt + 1) (fuel - 1) := by
        have : fuel + 1 - 1 = (fuel - 1) + 1 := by omega
        rw [this, List.range'_succ]
      rw [hr]
      simp
    · rw [if_neg hlt]
      have hfuel : fuel = 0 := by omega
      subst hfuel
      simp

/-- C5: when every transport attempt of the judge call fails, the call makes
its configured number of attempts, sleeping `retryDelay * attempt_number`
between consecutive attempts, and returns an `UNKNOWN` verdict with
confidence `0.5` instead of raising; the grounding result built from it (for
a non-empty answer) has `is_grounded = false` and confidence `0.5`. -/
theorem C5_judge_retry_exhaustion (oracle : ℕ → Option Verdict)
    (maxRetries : ℕ) (retryDelay : ℚ)
    (h : ∀ k, k < maxRetries → oracle k = none) :
    ((call_llm_judge oracle maxRetries retryDelay).1.verdict = "UNKNOWN" ∧
     (call_llm_judge oracle maxRetries retryDelay).1.confidence = 1/2 ∧
     (call_llm_judge oracle maxRetries retryDelay).2 =
       (List.range (maxRetries - 1)).map
         (fun k : ℕ => retryDelay * ((k : ℚ) + 1))) ∧
    (∀ (answer document_content : String) (question : Option String),
      trimChars answer.data ≠ [] →
      (check_llm_based oracle maxRetries retryDelay answer document_content
        question).is_grounded = false ∧
      (check_llm_based oracle maxRetries retryDelay answer document_content
        question).confidence = 1/2) := by
  have hgo := call_llm_judge_go_all_fail oracle maxRetries retryDelay h
    maxRetries 0 [] (by omega)
  have hmain : (call_llm_judge oracle maxRetries retryDelay).1.verdict = "UNKNOWN" ∧
      (call_llm_judge oracle maxRetries retryDelay).1.confidence = 1/2 ∧
      (call_llm_judge oracle maxRetries retryDelay).2 =
        (List.range (maxRetries - 1)).map (fun k : ℕ => retryDelay * ((k : ℚ) + 1)) := by
    refine ⟨hgo.1, hgo.2.1, ?_⟩
    show (call_llm_judge_go oracle maxRetries retryDelay 0 maxRetries []).2 =
      (List.range (maxRetries - 1)).map (fun k : ℕ => retryDelay * ((k : ℚ) + 1))
    rw [hgo.2.2, List.range_eq_range']
    simp
  refine ⟨hmain, ?_⟩
  intro answer document_content question hne
  have hv : ((call_llm_judge oracle maxRetries retryDelay).1.verdict = "SUPPORTED") = False := by
    simp [hmain.1]
  constructor
  · simp only [check_llm_based, if_neg hne]
    simp [hv]
  · have hc : (check_llm_based oracle maxRetries retryDelay answer
        document_content question).confidence =
        round3 ((call_llm_judge oracle maxRetries retryDelay).1.confidence) := by
      simp only [check_llm_based, if_neg hne]
    rw [hc, hmain.2.1]
    exact round3_half

theorem C5_judge_retry_exhaustion_witness :
    (∀ k, k < 3 → (fun _ : ℕ => (none : Option Verdict)) k = none) ∧
    (call_llm_judge (fun _ => none) 3 1).1.confidence = 1/2 ∧
    (call_llm_judge (fun _ => none) 3 1).2 = [1, 2] ∧
    (check_llm_based (fun _ => none) 3 1 "Ab cd." "doc" none).is_grounded = false := by
  have h : ∀ k, k < 3 → (fun _ : ℕ => (none : Option Verdict)) k = none :=
    fun _ _ => rfl
  have hc := C5_judge_retry_exhaustion (fun _ => none) 3 1 h
  refine ⟨h, hc.1.2.1, ?_, (hc.2 "Ab cd." "doc" none (by decide)).1⟩
  rw [hc.1.2.2]
  norm_num [List.range_succ]

/-- C7 (amended): every method string outside the five the dispatcher
accepts — `keyword`, `both` (a keyword alias), `semantic`, `llm`, `hybrid` —
raises `ValueError` immediately (modelled as the `Except.error` case, the
only error-raising path of the dispatcher, distinct from the in-band
degraded results of the service fallbacks). -/
theorem C7_unknown_method (sim : Option (String → ℚ))
    (oracle : ℕ → Option Verdict) (maxRetries : ℕ) (retryDelay : ℚ)
    (answer document_content : String) (question : Option String)
    (method : String)
    (h : method ≠ "keyword" ∧ method ≠ "both" ∧ method ≠ "semantic" ∧
      method ≠ "llm" ∧ method ≠ "hybrid") :
    check_hallucination sim oracle maxRetries retryDelay answer
      document_content question method =
    .error ("Unknown method: " ++ method ++
      ". Use \x27keyword\x27, \x27semantic\x27, \x27llm\x27, or \x27hybrid\x27") := by
  obtain ⟨h1, h2, h3, h4, h5⟩ := h
  simp [check_hallucination, h1, h2, h3, h4, h5]

theorem C7_unknown_method_witness :
    (("foo" : String) ≠ "keyword" ∧ ("foo" : String) ≠ "both" ∧
     ("foo" : String) ≠ "semantic" ∧ ("foo" : String) ≠ "llm" ∧
     ("foo" : String) ≠ "hybrid") ∧
    check_hallucination none (fun _ => none) 3 1 "a" "d" none "foo" =
      .error ("Unknown method: foo" ++
        ". Use \x27keyword\x27, \x27semantic\x27, \x27llm\x27, or \x27hybrid\x27") :=
  ⟨by decide,
   C7_unknown_method none (fun _ => none) 3 1 "a" "d" none "foo" (by decide)⟩

/-- C7 fails as literally stated: `both` is not one of the four specified
verification methods, yet the dispatcher accepts it and returns the keyword
result instead of raising. -/
theorem C7_unknown_method_counterexample :
    (("both" : String) ≠ "keyword" ∧ ("both" : String) ≠ "semantic" ∧
     ("both" : String) ≠ "llm" ∧ ("both" : String) ≠ "hybrid") ∧
    check_hallucination none (fun _ => none) 3 1 "Ab cd." "Ab cd." none "both" =
      .ok (check_keyword_based "Ab cd." "Ab cd." none) := by
  exact ⟨by decide, by with_unfolding_all rfl⟩

/-- C8 (amended): with the `exact` similarity method, two questions are
judged duplicates iff `exact_match` is enabled and their normalized forms
are equal, or their Jaccard similarity meets the threshold — the embedding
oracle is never consulted (the right-hand side does not mention it), but
token overlap does contribute through the trailing Jaccard comparison. -/
theorem C8_exact_method (semSim : String → String → ℚ)
    (question1 question2 : String) (similarity_threshold : ℚ)
    (exact_match : Bool) :
    is_duplicate semSim question1 question2 similarity_threshold exact_match
      "exact" =
    ((exact_match && (normalize_text question1 == normalize_text question2)) ||
     decide (similarity_threshold ≤
       calculate_jaccard_similarity question1 question2)) := by
  by_cases hx : (exact_match && (normalize_text question1 == normalize_text question2)) = true
  · simp [is_duplicate, hx]
  · have hx2 : (exact_match && (normalize_text question1 == normalize_text question2)) = false :=
      Bool.not_eq_true _ |>.mp hx
    simp [is_duplicate, hx2]

/-- C8 fails as literally stated: under the `exact` method two questions
with distinct normalized forms are judged duplicates because the comparison
falls through to the Jaccard threshold test. -/
theorem C8_exact_method_counterexample :
    is_duplicate (fun _ _ => 0) "ab cd ce" "ab cd cf" (1/2) true "exact" = true ∧
    normalize_text "ab cd ce" ≠ normalize_text "ab cd cf" := by
  with_unfolding_all decide

/-- C2 (amended): the hybrid method returns the semantic result retagged as
hybrid-semantic-only whenever the semantic pass has no ungrounded sentence;
otherwise it consults the judge on the full answer, and (a) if the verdict is
supported with confidence at least `0.7`, it moves every semantic sentence
into the grounded set, clears the issues, sets `is_grounded = true` and sets
the confidence to the judge confidence rounded to three decimals, while
(b) otherwise it keeps the semantic partition, sets the confidence to
`min(semantic, judge)` rounded to three decimals, appends the judge's reason
as an `LLM confirms:` issue when the reason is non-empty, and recomputes
`is_grounded` from the unrounded tightened confidence and the original
ungrounded count. -/
theorem C2_hybrid (sim : Option (String → ℚ)) (oracle : ℕ → Option Verdict)
    (maxRetries : ℕ) (retryDelay : ℚ) (answer document_content : String)
    (question : Option String) :
    let sr := check_semantic_based sim answer document_content question
    let v := (call_llm_judge oracle maxRetries retryDelay).1
    let r := check_hybrid sim oracle maxRetries retryDelay answer
      document_content question
    (sr.ungrounded_sentences = [] →
      r = { sr with method := "hybrid (semantic only — all passed)" }) ∧
    (sr.ungrounded_sentences ≠ [] → v.verdict = "SUPPORTED" →
      7/10 ≤ v.confidence →
      r.grounded_sentences = sr.grounded_sentences ++ sr.ungrounded_sentences ∧
      r.ungrounded_sentences = [] ∧ r.issues = [] ∧ r.is_grounded = true ∧
      r.confidence = round3 v.confidence) ∧
    (sr.ungrounded_sentences ≠ [] →
      ¬(v.verdict = "SUPPORTED" ∧ 7/10 ≤ v.confidence) →
      r.grounded_sentences = sr.grounded_sentences ∧
      r.ungrounded_sentences = sr.ungrounded_sentences ∧
      r.confidence = round3 (min sr.confidence v.confidence) ∧
      r.issues = sr.issues ++
        (if v.reason = "" then [] else ["LLM confirms: " ++ v.reason]) ∧
      (r.is_grounded = true ↔
        7/10 ≤ min sr.confidence v.confidence ∧
        sr.ungrounded_sentences.length = 0)) := by
  intro sr v r
  have hr : r =
      if sr.ungrounded_sentences = [] then
        { sr with method := "hybrid (semantic only — all passed)" }
      else if v.verdict = "SUPPORTED" ∧ 7/10 ≤ v.confidence then
        { is_grounded := true
          confidence := round3 v.confidence
          issues := []
          grounded_sentences := sr.grounded_sentences ++ sr.ungrounded_sentences
          ungrounded_sentences := []
          method := "hybrid (semantic + LLM override)"
          total_sentences := (sr.grounded_sentences ++ sr.ungrounded_sentences).length
          grounded_count := (sr.grounded_sentences ++ sr.ungrounded_sentences).length
          ungrounded_count := 0
          llm_verdict := some v }
      else
        { sr with
          method := "hybrid (semantic + LLM confirmed)"
          confidence := round3 (min sr.confidence v.confidence)
          is_grounded := decide (7/10 ≤ min sr.confidence v.confidence) &&
            (sr.ungrounded_sentences.length == 0)
          llm_verdict := some v
          issues := sr.issues ++
            (if v.reason = "" then [] else ["LLM confirms: " ++ v.reason]) } := rfl
  refine ⟨?_, ?_, ?_⟩
  · intro h0
    rw [hr, if_pos h0]
  · intro h0 hvv hvc
    rw [hr, if_neg h0, if_pos ⟨hvv, hvc⟩]
    exact ⟨rfl, rfl, rfl, rfl, rfl⟩
  · intro h0 hnv
    rw [hr, if_neg h0, if_neg hnv]
    refine ⟨rfl, rfl, rfl, rfl, ?_⟩
    show (decide (7/10 ≤ min sr.confidence v.confidence) &&
      (sr.ungrounded_sentences.length == 0)) = true ↔ _
    rw [Bool.and_eq_true, decide_eq_true_eq, beq_iff_eq]

theorem C2_hybrid_witness :
    ((check_semantic_based (some (fun _ => (1 : ℚ))) "Ab cd." "" none).ungrounded_sentences = [] ∧
     check_hybrid (some (fun _ => (1 : ℚ))) (fun _ => none) 3 1 "Ab cd." "" none =
       { check_semantic_based (some (fun _ => (1 : ℚ))) "Ab cd." "" none with
         method := "hybrid (semantic only — all passed)" }) ∧
    ((check_semantic_based (some (fun _ => (0 : ℚ))) "Ab cd." "" none).ungrounded_sentences ≠ [] ∧
     (call_llm_judge (fun _ => some ⟨"SUPPORTED", 8/10, "ok"⟩) 3 1).1.verdict = "SUPPORTED" ∧
     7/10 ≤ (call_llm_judge (fun _ => some ⟨"SUPPORTED", 8/10, "ok"⟩) 3 1).1.confidence ∧
     (check_hybrid (some (fun _ => (0 : ℚ)))
       (fun _ => some ⟨"SUPPORTED", 8/10, "ok"⟩) 3 1 "Ab cd." "" none).is_grounded = true) ∧
    ((check_hybrid (some (fun _ => (0 : ℚ)))
       (fun _ => some ⟨"NOT_SUPPORTED", 3/10, "bad"⟩) 3 1 "Ab cd." "" none).ungrounded_sentences =
     (check_semantic_based (some (fun _ => (0 : ℚ))) "Ab cd." "" none).ungrounded_sentences) := by
  refine ⟨⟨?_, ?_⟩, ⟨?_, by with_unfolding_all decide, by with_unfolding_all decide, ?_⟩, ?_⟩
  · with_unfolding_all decide
  · exact (C2_hybrid (some (fun _ => (1 : ℚ))) (fun _ => none) 3 1 "Ab cd." "" none).1
      (by with_unfolding_all decide)
  · with_unfolding_all decide
  · exact ((C2_hybrid (some (fun _ => (0 : ℚ)))
      (fun _ => some ⟨"SUPPORTED", 8/10, "ok"⟩) 3 1 "Ab cd." "" none).2.1
      (by with_unfolding_all decide) (by with_unfolding_all decide)
      (by with_unfolding_all decide)).2.2.2.1
  · exact ((C2_hybrid (some (fun _ => (0 : ℚ)))
      (fun _ => some ⟨"NOT_SUPPORTED", 3/10, "bad"⟩) 3 1 "Ab cd." "" none).2.2
      (by with_unfolding_all decide) (by with_unfolding_all decide)).2.1

theorem filter_ne_nil_iff_any {α : Type} (p : α → Bool) (l : List α) :
    l.filter p ≠ [] ↔ l.any p = true := by
  induction l with
  | nil => simp
  | cons a t ih => by_cases h : p a <;> simp [h, ih]

/-- C4: the report's overall confidence is the stored value unless it is
absent or some pair is warn/fail and pair confidences are available, in which
case it is their mean; the quality band follows the claimed precedence chain
(no pairs, then overall below attention, then warn/fail with overall below
review, then any warning or overall below review, else excellent); and an
empty pair list comes with the explicit no-pairs warning. -/
theorem C4_document_quality (document : DocumentRecord) (cfg : Thresholds) :
    ((evaluate_document_quality document cfg).overall_confidence =
      if (document.overall_confidence = none ∨
          (perPairQualities document cfg).any
            (fun q => q.status = "warn" || q.status = "fail") = true) ∧
          availableConfidences document cfg ≠ [] then
        some (meanQ (availableConfidences document cfg))
      else document.overall_confidence) ∧
    ((evaluate_document_quality document cfg).quality_band =
      if document.qa_pairs = [] then "needs_attention"
      else if confBelow (evaluate_document_quality document cfg).overall_confidence
          cfg.attention_confidence = true then "needs_attention"
      else if (perPairQualities document cfg).any
            (fun q => q.status = "warn" || q.status = "fail") = true ∧
          confBelow (evaluate_document_quality document cfg).overall_confidence
            cfg.review_confidence = true then "needs_attention"
      else if (evaluate_document_quality document cfg).warnings ≠ [] ∨
          confBelow (evaluate_document_quality document cfg).overall_confidence
            cfg.review_confidence = true then "review"
      else "excellent") ∧
    (document.qa_pairs = [] →
      "No Q&A pairs available" ∈ (evaluate_document_quality document cfg).warnings) := by
  have hWF : ((perPairQualities document cfg).filter
      (fun q => q.status = "warn" || q.status = "fail") ≠ []) ↔
      ((perPairQualities document cfg).any
      (fun q => q.status = "warn" || q.status = "fail") = true) :=
    filter_ne_nil_iff_any _ _
  have hoc : (evaluate_document_quality document cfg).overall_confidence =
      docOverallConfidence document cfg := rfl
  have hwarn : (evaluate_document_quality document cfg).warnings =
      (docBandWarnings document cfg).2 := rfl
  have hband : (evaluate_document_quality document cfg).quality_band =
      (docBandWarnings document cfg).1 := rfl
  refine ⟨?_, ?_, ?_⟩
  · rw [hoc]
    by_cases hA : (perPairQualities document cfg).any
        (fun q => q.status = "warn" || q.status = "fail") = true
    · have hf : (perPairQualities document cfg).filter
          (fun q => q.status = "warn" || q.status = "fail") ≠ [] := hWF.mpr hA
      by_cases hc : availableConfidences document cfg = [] <;>
        simp [docOverallConfidence, lowConfPairs, hf, hc, hA]
    · have hf : (perPairQualities document cfg).filter
          (fun q => q.status = "warn" || q.status = "fail") = [] := by
        by_contra hx
        exact hA (hWF.mp hx)
      by_cases hst : document.overall_confidence = none <;>
        by_cases hc : availableConfidences document cfg = [] <;>
          simp [docOverallConfidence, lowConfPairs, hf, hst, hc, hA]
  · rw [hband, hoc, hwarn]
    by_cases hqa : document.qa_pairs = []
    · simp [docBandWarnings, hqa]
    · have hw2 : (docBandWarnings document cfg).2 = docWarningsPre document cfg := by
        simp only [docBandWarnings]
        rw [if_neg hqa]
        split_ifs <;> rfl
      rw [hw2]
      simp only [docBandWarnings, lowConfPairs]
      rw [if_neg hqa]
      by_cases h1 : confBelow (docOverallConfidence document cfg)
          cfg.attention_confidence = true <;>
        by_cases h2 : confBelow (docOverallConfidence document cfg)
          cfg.review_confidence = true <;>
        by_cases h3 : (perPairQualities document cfg).any
          (fun q => q.status = "warn" || q.status = "fail") = true <;>
        by_cases h4 : docWarningsPre document cfg = [] <;>
        simp only [lowConfPairs] at hWF ⊢ <;>
        simp [hWF, h1, h2, h3, h4, hqa]
  · intro hqa
    rw [hwarn]
    simp [docBandWarnings, hqa]

theorem C4_document_quality_witness :
    (({ qa_pairs := [], overall_confidence := none, nested_id := none,
        flat_id := none } : DocumentRecord).qa_pairs = []) ∧
    "No Q&A pairs available" ∈
      (evaluate_document_quality
        { qa_pairs := [], overall_confidence := none, nested_id := none,
          flat_id := none } DEFAULT_THRESHOLDS).warnings :=
  ⟨rfl, (C4_document_quality
    { qa_pairs := [], overall_confidence := none, nested_id := none,
      flat_id := none } DEFAULT_THRESHOLDS).2.2 rfl⟩

/-! ### Association-list lemmas for the cluster construction -/

theorem lookupA_upsert_eq (acc : List (ℕ × List ℕ)) (r i : ℕ) :
    lookupA (upsertAppend acc r i) r = lookupA acc r ++ [i] := by
  induction acc with
  | nil => simp [upsertAppend, lookupA]
  | cons e rest ih =>
    obtain ⟨k, l⟩ := e
    by_cases hk : k = r
    · subst hk
      simp [upsertAppend, lookupA]
    · simp [upsertAppend, lookupA, hk, ih]

theorem lookupA_upsert_ne (acc : List (ℕ × List ℕ)) {r r' : ℕ} (i : ℕ)
    (h : r' ≠ r) :
    lookupA (upsertAppend acc r i) r' = lookupA acc r' := by
  induction acc with
  | nil => simp [upsertAppend, lookupA, Ne.symm h]
  | cons e rest ih =>
    obtain ⟨k, l⟩ := e
    by_cases hk : k = r
    · subst hk
      simp [upsertAppend, lookupA, Ne.symm h]
    · simp [upsertAppend, lookupA, hk, ih]

theorem lookupA_foldl (root : ℕ → ℕ) (xs : List ℕ) :
    ∀ (acc : List (ℕ × List ℕ)) (r : ℕ),
    lookupA (xs.foldl (fun a i => upsertAppend a (root i) i) acc) r =
      lookupA acc r ++ xs.filter (fun i => root i == r) := by
  induction xs with
  | nil =>
    intro acc r
    simp
  | cons i xs ih =>
    intro acc r
    simp only [List.foldl_cons, List.filter_cons]
    by_cases hr : root i = r
    · rw [ih, hr, lookupA_upsert_eq]
      simp
    · rw [ih, lookupA_upsert_ne _ _ (Ne.symm hr)]
      simp [hr]

theorem buildClusters_lookup (root : ℕ → ℕ) (n : ℕ) (r : ℕ) :
    lookupA (buildClusters root n) r =
      (List.range n).filter (fun i => root i == r) := by
  unfold buildClusters
  rw [lookupA_foldl]
  simp [lookupA]

theorem upsert_keys (acc : List (ℕ × List ℕ)) (r i : ℕ) :
    (upsertAppend acc r i).map Prod.fst =
      if r ∈ acc.map Prod.fst then acc.map Prod.fst
      else acc.map Prod.fst ++ [r] := by
  induction acc with
  | nil => simp [upsertAppend]
  | cons e rest ih =>
    obtain ⟨k, l⟩ := e
    by_cases hk : k = r
    · subst hk
      simp [upsertAppend]
    · by_cases hm : r ∈ rest.map Prod.fst
      · simp [upsertAppend, hk, ih, hm, Ne.symm hk]
      · simp [upsertAppend, hk, ih, hm, Ne.symm hk]

theorem foldl_keys_nodup (root : ℕ → ℕ) (xs : List ℕ) :
    ∀ acc : List (ℕ × List ℕ), (acc.map Prod.fst).Nodup →
    ((xs.foldl (fun a i => upsertAppend a (root i) i) acc).map Prod.fst).Nodup := by
  induction xs with
  | nil =>
    intro acc h
    simpa using h
  | cons i xs ih =>
    intro acc h
    simp only [List.foldl_cons]
    apply ih
    rw [upsert_keys]
    split
    · exact h
    · rename_i hm
      simp [List.nodup_append, h, hm]

theorem buildClusters_keys_nodup (root : ℕ → ℕ) (n : ℕ) :
    ((buildClusters root n).map Prod.fst).Nodup := by
  unfold buildClusters
  exact foldl_keys_nodup root (List.range n) [] (by simp)

theorem lookupA_of_mem {acc : List (ℕ × List ℕ)}
    (hnd : (acc.map Prod.fst).Nodup) {e : ℕ × List ℕ} (he : e ∈ acc) :
    lookupA acc e.1 = e.2 := by
  induction acc with
  | nil => cases he
  | cons f rest ih =>
    obtain ⟨k, l⟩ := f
    rcases List.mem_cons.mp he with h1 | h2
    · subst h1
      simp [lookupA]
    · have hk : k ≠ e.1 := by
        intro hkk
        have hmem : e.1 ∈ rest.map Prod.fst := List.mem_map_of_mem Prod.fst h2
        rw [List.map_cons] at hnd
        exact (List.nodup_cons.mp hnd).1 (hkk ▸ hmem)
      rw [List.map_cons] at hnd
      simp only [lookupA, if_neg hk]
      exact ih (List.nodup_cons.mp hnd).2 h2

theorem mem_of_lookupA_ne_nil {acc : List (ℕ × List ℕ)} {k : ℕ}
    (h : lookupA acc k ≠ []) : (k, lookupA acc k) ∈ acc := by
  induction acc with
  | nil => simp [lookupA] at h
  | cons f rest ih =>
    obtain ⟨k0, l0⟩ := f
    by_cases hk : k0 = k
    · subst hk
      simp [lookupA]
    · simp only [lookupA, if_neg hk] at h ⊢
      exact List.mem_cons_of_mem _ (ih h)

theorem upsert_snd_ne_nil {acc : List (ℕ × List ℕ)}
    (h : ∀ e ∈ acc, e.2 ≠ []) (r i : ℕ) :
    ∀ e ∈ upsertAppend acc r i, e.2 ≠ [] := by
  induction acc with
  | nil =>
    intro e he
    simp only [upsertAppend, List.mem_singleton] at he
    subst he
    simp
  | cons f rest ih =>
    obtain ⟨k, l⟩ := f
    intro e he
    by_cases hk : k = r
    · subst hk
      simp only [upsertAppend, if_pos rfl] at he
      rcases List.mem_cons.mp he with h1 | h2
      · subst h1
        simp
      · exact h e (List.mem_cons_of_mem _ h2)
    · simp only [upsertAppend, if_neg hk] at he
      rcases List.mem_cons.mp he with h1 | h2
      · subst h1
        exact h _ (List.mem_cons_self _ _)
      · exact ih (fun e2 he2 => h e2 (List.mem_cons_of_mem _ he2)) e h2

theorem foldl_snd_ne_nil (root : ℕ → ℕ) (xs : List ℕ) :
    ∀ acc : List (ℕ × List ℕ), (∀ e ∈ acc, e.2 ≠ []) →
    ∀ e ∈ xs.foldl (fun a i => upsertAppend a (root i) i) acc, e.2 ≠ [] := by
  induction xs with
  | nil =>
    intro acc h
    simpa using h
  | cons i xs ih =>
    intro acc h
    simp only [List.foldl_cons]
    exact ih _ (upsert_snd_ne_nil h _ _)

theorem buildClusters_snd_ne_nil (root : ℕ → ℕ) (n : ℕ) :
    ∀ e ∈ buildClusters root n, e.2 ≠ [] := by
  unfold buildClusters
  exact foldl_snd_ne_nil root (List.range n) [] (by simp)

/-! ### Cluster characterization: the clusters are the non-empty fibers of
the root function over `range n`, in first-occurrence order. -/

theorem fiber_pairwise_lt (root : ℕ → ℕ) (n r : ℕ) :
    ((List.range n).filter (fun i => root i == r)).Pairwise (· < ·) :=
  (List.pairwise_lt_range n).filter _

theorem fiber_nodup (root : ℕ → ℕ) (n r : ℕ) :
    ((List.range n).filter (fun i => root i == r)).Nodup :=
  (List.nodup_range n).filter _

theorem clustersAux_eq_map_snd (root : ℕ → ℕ) (n : ℕ) :
    clustersAux root n = (buildClusters root n).map Prod.snd := by
  unfold clustersAux
  apply List.map_congr_left
  intro e he
  have hv := lookupA_of_mem (buildClusters_keys_nodup root n) he
  have hfib : e.2 = (List.range n).filter (fun i => root i == e.1) := by
    rw [← hv, buildClusters_lookup]
  have hs : e.2.Sorted (· ≤ ·) := by
    rw [hfib]
    exact (fiber_pairwise_lt root n e.1).imp le_of_lt
  exact hs.insertionSort_eq

theorem clustersAux_mem_spec (root : ℕ → ℕ) (n : ℕ) {c : List ℕ}
    (hc : c ∈ clustersAux root n) :
    ∃ r, c = (List.range n).filter (fun i => root i == r) ∧ c ≠ [] := by
  rw [clustersAux_eq_map_snd] at hc
  obtain ⟨e, he, hce⟩ := List.mem_map.mp hc
  have hv := lookupA_of_mem (buildClusters_keys_nodup root n) he
  refine ⟨e.1, ?_, ?_⟩
  · rw [← hce, ← hv, buildClusters_lookup]
  · rw [← hce]
    exact buildClusters_snd_ne_nil root n e he

theorem fiber_mem_clustersAux (root : ℕ → ℕ) (n : ℕ) {i : ℕ} (hi : i < n) :
    (List.range n).filter (fun j => root j == root i) ∈ clustersAux root n := by
  rw [clustersAux_eq_map_snd]
  have hik : i ∈ lookupA (buildClusters root n) (root i) := by
    rw [buildClusters_lookup]
    simp [List.mem_filter, List.mem_range, hi]
  have hmem := mem_of_lookupA_ne_nil (List.ne_nil_of_mem hik)
  refine List.mem_map.mpr
    ⟨(root i, lookupA (buildClusters root n) (root i)), hmem, ?_⟩
  show lookupA (buildClusters root n) (root i) = _
  rw [buildClusters_lookup]

theorem countP_beq_of_nodup {l : List ℕ} (h : l.Nodup) {k : ℕ} (hk : k ∈ l) :
    l.countP (fun x => x == k) = 1 := by
  induction l with
  | nil => cases hk
  | cons a t ih =>
    have hnd := List.nodup_cons.mp h
    rcases List.mem_cons.mp hk with h1 | h2
    · have hz : t.countP (fun x => x == k) = 0 := by
        apply List.countP_eq_zero.mpr
        intro x hx
        simp only [beq_iff_eq]
        intro hxk
        rw [hxk] at hx
        exact hnd.1 (h1 ▸ hx)
      have hak : (a == k) = true := by simp [h1.symm]
      simp [List.countP_cons, hz, hak]
    · have hak : (a == k) = false := by
        have hne : a ≠ k := fun hak => hnd.1 (hak ▸ h2)
        simp [hne]
      simp [List.countP_cons, ih hnd.2 h2, hak]

theorem clustersAux_count_one (root : ℕ → ℕ) (n : ℕ) {i : ℕ} (hi : i < n) :
    (clustersAux root n).countP (fun c => decide (i ∈ c)) = 1 := by
  rw [clustersAux_eq_map_snd, List.countP_map]
  have hcongr : (buildClusters root n).countP
      ((fun c => decide (i ∈ c)) ∘ Prod.snd) =
      (buildClusters root n).countP (fun e => e.1 == root i) := by
    apply List.countP_congr
    intro e he
    have hv := lookupA_of_mem (buildClusters_keys_nodup root n) he
    have hfib : e.2 = (List.range n).filter (fun j => root j == e.1) := by
      rw [← hv, buildClusters_lookup]
    simp only [Function.comp, decide_eq_true_eq, beq_iff_eq]
    constructor
    · intro hmem
      rw [hfib] at hmem
      exact (beq_iff_eq.mp (List.mem_filter.mp hmem).2).symm
    · intro hei
      rw [hfib, hei]
      simp [List.mem_filter, List.mem_range, hi]
  rw [hcongr]
  have hmapped : (buildClusters root n).countP (fun e => e.1 == root i) =
      ((buildClusters root n).map Prod.fst).countP (fun x => x == root i) := by
    rw [List.countP_map]
    rfl
  rw [hmapped]
  apply countP_beq_of_nodup (buildClusters_keys_nodup root n)
  have hik : i ∈ lookupA (buildClusters root n) (root i) := by
    rw [buildClusters_lookup]
    simp [List.mem_filter, List.mem_range, hi]
  exact List.mem_map_of_mem Prod.fst
    (mem_of_lookupA_ne_nil (List.ne_nil_of_mem hik))

theorem headD_le_of_pairwise_lt {c : List ℕ} (hs : c.Pairwise (· < ·))
    {i : ℕ} (hi : i ∈ c) : c.headD 0 ≤ i := by
  cases c with
  | nil => cases hi
  | cons h t =>
    rcases List.mem_cons.mp hi with h1 | h2
    · subst h1
      simp [List.headD]
    · exact le_of_lt (List.rel_of_pairwise_cons hs h2)

theorem cluster_mem_lt (root : ℕ → ℕ) (n : ℕ) {c : List ℕ}
    (hc : c ∈ clustersAux root n) {i : ℕ} (hi : i ∈ c) : i < n := by
  obtain ⟨r, hcr, _⟩ := clustersAux_mem_spec root n hc
  rw [hcr] at hi
  exact List.mem_range.mp (List.mem_filter.mp hi).1

theorem cluster_unique (root : ℕ → ℕ) (n : ℕ) {c1 c2 : List ℕ}
    (h1 : c1 ∈ clustersAux root n) (h2 : c2 ∈ clustersAux root n) {i : ℕ}
    (hi1 : i ∈ c1) (hi2 : i ∈ c2) : c1 = c2 := by
  obtain ⟨r1, e1, _⟩ := clustersAux_mem_spec root n h1
  obtain ⟨r2, e2, _⟩ := clustersAux_mem_spec root n h2
  have hr1 : root i = r1 := by
    rw [e1] at hi1
    exact beq_iff_eq.mp (List.mem_filter.mp hi1).2
  have hr2 : root i = r2 := by
    rw [e2] at hi2
    exact beq_iff_eq.mp (List.mem_filter.mp hi2).2
  rw [e1, e2, ← hr1, ← hr2]

theorem clustersAux_dups_eq (root : ℕ → ℕ) (n : ℕ) :
    ((clustersAux root n).flatMap (fun c => c.drop 1)).insertionSort (· ≤ ·) =
      (List.range n).filter
        (fun i => !((clustersAux root n).any (fun c => c.headD 0 == i))) := by
  have hnd1 : ((clustersAux root n).flatMap (fun c => c.drop 1)).Nodup := by
    rw [List.nodup_flatMap]
    constructor
    · intro c hc
      obtain ⟨r, hcr, _⟩ := clustersAux_mem_spec root n hc
      exact List.Nodup.sublist (List.drop_sublist 1 c)
        (by rw [hcr]; exact fiber_nodup root n r)
    · rw [clustersAux_eq_map_snd, List.pairwise_map]
      have hkeys := buildClusters_keys_nodup root n
      have hkp : (buildClusters root n).Pairwise (fun e1 e2 => e1.1 ≠ e2.1) :=
        List.pairwise_map.mp hkeys
      apply List.Pairwise.imp_of_mem ?_ hkp
      intro e1 e2 he1 he2 hne x hx1 hx2
      have hv1 := lookupA_of_mem (buildClusters_keys_nodup root n) he1
      have hv2 := lookupA_of_mem (buildClusters_keys_nodup root n) he2
      have hm1 : x ∈ e1.2 := List.drop_subset 1 e1.2 hx1
      have hm2 : x ∈ e2.2 := List.drop_subset 1 e2.2 hx2
      rw [← hv1, buildClusters_lookup] at hm1
      rw [← hv2, buildClusters_lookup] at hm2
      have hr1 : root x = e1.1 := beq_iff_eq.mp (List.mem_filter.mp hm1).2
      have hr2 : root x = e2.1 := beq_iff_eq.mp (List.mem_filter.mp hm2).2
      exact hne (hr1 ▸ hr2)
  have hnd2 : ((List.range n).filter
      (fun i => !((clustersAux root n).any (fun c => c.headD 0 == i)))).Nodup :=
    (List.nodup_range n).filter _
  apply List.eq_of_perm_of_sorted (r := (· ≤ ·))
  · refine (List.perm_insertionSort _ _).trans ?_
    rw [List.perm_ext_iff_of_nodup hnd1 hnd2]
    intro a
    rw [List.mem_flatMap, List.mem_filter, List.mem_range]
    constructor
    · rintro ⟨c, hc, hac⟩
      have hacFull : a ∈ c := List.drop_subset 1 c hac
      refine ⟨cluster_mem_lt root n hc hacFull, ?_⟩
      simp only [Bool.not_eq_eq_eq_not, Bool.not_true, List.any_eq_false]
      intro c2 hc2
      by_contra hbc
      have htrue : (c2.headD 0 == a) = true := by
        revert hbc
        cases c2.headD 0 == a <;> simp
      have hh2 : c2.headD 0 = a := beq_iff_eq.mp htrue
      obtain ⟨r2, hcr2, hne2⟩ := clustersAux_mem_spec root n hc2
      have hhd : c2.headD 0 ∈ c2 := by
        obtain ⟨h, t, hht⟩ := List.exists_cons_of_ne_nil hne2
        rw [hht]
        simp [List.headD]
      rw [hh2] at hhd
      have hceq : c = c2 := cluster_unique root n hc hc2 hacFull hhd
      subst hceq
      obtain ⟨r, hcr, hcne⟩ := clustersAux_mem_spec root n hc
      have hnd : c.Nodup := by
        rw [hcr]
        exact fiber_nodup root n r
      obtain ⟨h, t, hht⟩ := List.exists_cons_of_ne_nil hcne
      rw [hht] at hac hh2 hnd
      simp only [List.drop_succ_cons, List.drop_zero] at hac
      have hha : h = a := by simpa [List.headD] using hh2
      exact (List.nodup_cons.mp hnd).1 (hha ▸ hac)
    · rintro ⟨han, hna⟩
      have hc := fiber_mem_clustersAux root n han
      have hac : a ∈ (List.range n).filter (fun j => root j == root a) := by
        simp [List.mem_filter, List.mem_range, han]
      obtain ⟨h, t, hht⟩ := List.exists_cons_of_ne_nil (List.ne_nil_of_mem hac)
      simp only [Bool.not_eq_eq_eq_not, Bool.not_true, List.any_eq_false] at hna
      have hhe := hna _ hc
      rw [hht] at hhe
      have hha : h ≠ a := by
        intro hha
        rw [show ((h :: t).headD 0) = h from rfl, hha] at hhe
        simp at hhe
      have hat : a ∈ t := by
        rw [hht] at hac
        rcases List.mem_cons.mp hac with h1 | h2
        · exact absurd h1.symm hha
        · exact h2
      exact ⟨_, hc, by rw [hht]; simpa using hat⟩
  · exact List.sorted_insertionSort _ _
  · exact ((List.pairwise_lt_range n).filter _).imp le_of_lt

/-- The representatives of `detect_duplicate_questions` are the questions at
the head (lowest) index of each cluster, including the short-circuited
`len(questions) <= 1` cases. -/
theorem detect_fst_eq (semSim : String → String → ℚ) (qs : List String)
    (th : ℚ) (ex : Bool) (m : String) :
    (detect_duplicate_questions semSim qs th ex m).1 =
      (clustersOf (fun a b => is_duplicate semSim a b th ex m) qs).map
        (fun c => qs.getD (c.headD 0) "") := by
  cases qs with
  | nil => rfl
  | cons a t =>
    cases t with
    | nil => rfl
    | cons b t2 => rfl

/-- The duplicate indices of `detect_duplicate_questions` are the ascending
non-head indices, including the short-circuited cases. -/
theorem detect_snd_eq (semSim : String → String → ℚ) (qs : List String)
    (th : ℚ) (ex : Bool) (m : String) :
    (detect_duplicate_questions semSim qs th ex m).2 =
      (List.range qs.length).filter
        (fun i => !((clustersOf (fun a b => is_duplicate semSim a b th ex m) qs).any
          (fun c => c.headD 0 == i))) := by
  cases qs with
  | nil => rfl
  | cons a t =>
    cases t with
    | nil => rfl
    | cons b t2 =>
      show ((clustersOf (fun x y => is_duplicate semSim x y th ex m)
          (a :: b :: t2)).flatMap (fun c => c.drop 1)).insertionSort (· ≤ ·) = _
      exact clustersAux_dups_eq _ _

/-- C3: for every question list, threshold, exact-match flag and method, the
clusters partition `{0..n-1}` (every index lies in exactly one cluster, and
clusters are non-empty sets of indices below `n` headed by their lowest
index), the representatives are exactly the questions at the lowest index of
each cluster (one per cluster, so the list lengths agree), and
`duplicate_indices` is exactly the ascending list of the non-representative
indices. -/
theorem C3_cluster_partition (semSim : String → String → ℚ)
    (questions : List String) (similarity_threshold : ℚ) (exact_match : Bool)
    (method : String) :
    (∀ i, i < questions.length →
      ((clustersOf (fun a b => is_duplicate semSim a b similarity_threshold
        exact_match method) questions).countP (fun c => decide (i ∈ c))) = 1) ∧
    (∀ c ∈ clustersOf (fun a b => is_duplicate semSim a b similarity_threshold
        exact_match method) questions,
      c ≠ [] ∧ ∀ i ∈ c, i < questions.length ∧ c.headD 0 ≤ i) ∧
    ((detect_duplicate_questions semSim questions similarity_threshold
        exact_match method).1 =
      (clustersOf (fun a b => is_duplicate semSim a b similarity_threshold
        exact_match method) questions).map
        (fun c => questions.getD (c.headD 0) "")) ∧
    ((detect_duplicate_questions semSim questions similarity_threshold
        exact_match method).1.length =
      (clustersOf (fun a b => is_duplicate semSim a b similarity_threshold
        exact_match method) questions).length) ∧
    ((detect_duplicate_questions semSim questions similarity_threshold
        exact_match method).2 =
      (List.range questions.length).filter
        (fun i => !((clustersOf (fun a b => is_duplicate semSim a b
          similarity_threshold exact_match method) questions).any
          (fun c => c.headD 0 == i)))) := by
  refine ⟨?_, ?_, detect_fst_eq semSim questions similarity_threshold
    exact_match method, ?_, detect_snd_eq semSim questions
    similarity_threshold exact_match method⟩
  · intro i hi
    exact clustersAux_count_one _ _ hi
  · intro c hc
    have hc2 : c ∈ clustersAux
        (dupRoot (fun a b => is_duplicate semSim a b similarity_threshold
          exact_match method) questions) questions.length := hc
    obtain ⟨r, hcr, hcne⟩ := clustersAux_mem_spec _ _ hc2
    refine ⟨hcne, fun i hi => ⟨cluster_mem_lt _ _ hc2 hi, ?_⟩⟩
    have hp : c.Pairwise (· < ·) := by
      rw [hcr]
      exact fiber_pairwise_lt _ _ _
    exact headD_le_of_pairwise_lt hp hi
  · rw [detect_fst_eq semSim questions similarity_threshold exact_match method]
    exact List.length_map _ _

/-- C9: `filter_duplicates_from_new_questions` returns the self-deduplicated
new questions (the cluster representatives of the new list) when the
existing list is empty, the empty list when the new list is empty, and
otherwise the representatives of the clusters of `existing ++ new` whose
normalized form does not equal the normalized form of any existing
question. -/
theorem C9_filter_new_questions (semSim : String → String → ℚ)
    (existing_questions new_questions : List String)
    (similarity_threshold : ℚ) (method : String) :
    (existing_questions = [] →
      filter_duplicates_from_new_questions semSim existing_questions
        new_questions similarity_threshold method =
      (clustersOf (fun a b => is_duplicate semSim a b similarity_threshold
        true method) new_questions).map
        (fun c => new_questions.getD (c.headD 0) "")) ∧
    (new_questions = [] →
      filter_duplicates_from_new_questions semSim existing_questions
        new_questions similarity_threshold method = []) ∧
    (existing_questions ≠ [] → new_questions ≠ [] →
      filter_duplicates_from_new_questions semSim existing_questions
        new_questions similarity_threshold method =
      ((clustersOf (fun a b => is_duplicate semSim a b similarity_threshold
          true method) (existing_questions ++ new_questions)).map
        (fun c => (existing_questions ++ new_questions).getD (c.headD 0) "")).filter
        (fun q => normalize_text q ∉ existing_questions.map normalize_text)) := by
  refine ⟨?_, ?_, ?_⟩
  · intro h
    subst h
    simp only [filter_duplicates_from_new_questions, if_pos rfl]
    exact detect_fst_eq semSim new_questions similarity_threshold true method
  · intro h
    subst h
    by_cases hex : existing_questions = []
    · subst hex
      rfl
    · simp [filter_duplicates_from_new_questions, hex]
  · intro hex hnew
    simp only [filter_duplicates_from_new_questions, if_neg hex, if_neg hnew]
    rw [detect_fst_eq semSim (existing_questions ++ new_questions)
      similarity_threshold true method]

theorem C9_filter_new_questions_witness :
    ((["ab"] : List String) ≠ [] ∧ (["ab", "cd"] : List String) ≠ []) ∧
    filter_duplicates_from_new_questions (fun _ _ => (-1 : ℚ)) ["ab"]
      ["ab", "cd"] 1 "semantic" =
    ((clustersOf (fun a b => is_duplicate (fun _ _ => (-1 : ℚ)) a b 1 true
        "semantic") (["ab"] ++ ["ab", "cd"])).map
      (fun c => ((["ab"] : List String) ++ ["ab", "cd"]).getD (c.headD 0) "")).filter
      (fun q => normalize_text q ∉ (["ab"] : List String).map normalize_text) :=
  ⟨⟨by decide, by decide⟩,
   (C9_filter_new_questions (fun _ _ => (-1 : ℚ)) ["ab"] ["ab", "cd"] 1
     "semantic").2.2 (by decide) (by decide)⟩

theorem C3_cluster_partition_witness :
    (0 < (["ab", "ab", "cd"] : List String).length) ∧
    ((clustersOf (fun a b => is_duplicate (fun _ _ => (-1 : ℚ)) a b 1 true
      "semantic") ["ab", "ab", "cd"]).countP (fun c => decide (0 ∈ c))) = 1 ∧
    ([0, 1] ∈ clustersOf (fun a b => is_duplicate (fun _ _ => (-1 : ℚ)) a b 1
      true "semantic") ["ab", "ab", "cd"]) ∧
    ([0, 1] ≠ [] ∧ ∀ i ∈ [0, 1], i < (["ab", "ab", "cd"] : List String).length ∧
      List.headD [0, 1] 0 ≤ i) := by
  have h1 : (0 : ℕ) < (["ab", "ab", "cd"] : List String).length := by decide
  have h2 := (C3_cluster_partition (fun _ _ => (-1 : ℚ)) ["ab", "ab", "cd"]
    1 true "semantic").1 0 h1
  have hm : [0, 1] ∈ clustersOf (fun a b => is_duplicate (fun _ _ => (-1 : ℚ))
      a b 1 true "semantic") ["ab", "ab", "cd"] := by
    with_unfolding_all decide
  have h3 := (C3_cluster_partition (fun _ _ => (-1 : ℚ)) ["ab", "ab", "cd"]
    1 true "semantic").2.1 [0, 1] hm
  exact ⟨h1, h2, hm, h3⟩

/-- C2 fails as literally stated: in the judge-override branch the returned
confidence is the judge confidence rounded to three decimals, which differs
from the judge confidence itself when the latter is `7/9`. -/
theorem C2_hybrid_counterexample :
    (check_semantic_based (some (fun _ => (0 : ℚ))) "Ab cd." "" none).ungrounded_sentences ≠ [] ∧
    (call_llm_judge (fun _ => some ⟨"SUPPORTED", 7/9, "ok"⟩) 3 1).1.verdict = "SUPPORTED" ∧
    7/10 ≤ (call_llm_judge (fun _ => some ⟨"SUPPORTED", 7/9, "ok"⟩) 3 1).1.confidence ∧
    (check_hybrid (some (fun _ => (0 : ℚ)))
      (fun _ => some ⟨"SUPPORTED", 7/9, "ok"⟩) 3 1 "Ab cd." "" none).is_grounded = true ∧
    (check_hybrid (some (fun _ => (0 : ℚ)))
      (fun _ => some ⟨"SUPPORTED", 7/9, "ok"⟩) 3 1 "Ab cd." "" none).confidence ≠
    (call_llm_judge (fun _ => some ⟨"SUPPORTED", 7/9, "ok"⟩) 3 1).1.confidence := by
  with_unfolding_all decide

end QaEngine
